import Mathlib

/-!
# Event emitter, dispatch loop, buffers and file descriptors of zephyr.js

A shallow embedding of `src/zjs_event.c`, of the dispatch loop of `src/main.c`,
of the byte access and string conversion of `src/zjs_buffer.c` and of the
descriptor bookkeeping of `src/zjs_fs.c`.  The functions are translated one by
one from the sources.  The script engine is represented by the few value
shapes the modules inspect, the operating system by the outcomes of its
calls, and the callback registry (`zjs_callbacks.c`, which is not among the
sources) by a model written from the specification; every call the emitter
makes into the registry is also recorded in a trace, and every buffer function
reports the indices it accessed.
-/

namespace Zjs

/-! ## Script values -/

/-- Script-engine values, as far as the emitter looks at them.  Numbers are the
integral doubles; `object` and `function` carry an identity. -/
inductive JVal where
  | undefined : JVal
  | boolean (b : Bool) : JVal
  | number (n : Int) : JVal
  | string (s : String) : JVal
  | function (f : Nat) : JVal
  | object (o : Nat) : JVal
  | error (msg : String) : JVal
  deriving DecidableEq, Repr

/-- Result of a native function: a plain value, or a freshly created array given
by its elements (a hole reads as `undefined`). -/
inductive JRet where
  | value (v : JVal) : JRet
  | array (items : List JVal) : JRet
  deriving DecidableEq, Repr

/-- Argument kinds named by `ZJS_VALIDATE_ARGS`. -/
inductive ArgType where
  | Z_STRING
  | Z_FUNCTION
  | Z_NUMBER
  | Z_OBJECT
  deriving DecidableEq, Repr

/-- Does a value have the given argument kind. -/
def JVal.has_type : JVal → ArgType → Bool
  | JVal.string _, ArgType.Z_STRING => true
  | JVal.function _, ArgType.Z_FUNCTION => true
  | JVal.number _, ArgType.Z_NUMBER => true
  | JVal.object _, ArgType.Z_OBJECT => true
  | _, _ => false

/-- Modelled from the spec: `ZJS_VALIDATE_ARGS` (its definition is not among the
sources).  Per §7(d) malformed script-side arguments (wrong type or arity) are
caught before the body runs: each required kind must be matched by the argument
at its position; further arguments are passed through. -/
def validate_args : List ArgType → List JVal → Bool
  | [], _ => true
  | _ :: _, [] => false
  | t :: ts, v :: vs => v.has_type t && validate_args ts vs

/-- Error value returned when `ZJS_VALIDATE_ARGS` fails. -/
def invalid_args_error : JVal := JVal.error "invalid arguments"

/-- `ZJS_MAX_EVENT_NAME_SIZE`. -/
def ZJS_MAX_EVENT_NAME_SIZE : Nat := 24

/-- `DEFAULT_MAX_LISTENERS`. -/
def DEFAULT_MAX_LISTENERS : Int := 10

/-- Modelled from the spec: `zjs_copy_jstring` (defined outside the sources).
Event names are bounded to 24 bytes including the terminator: the string is
copied when its byte size is below `maxlen`, and the reported size is the number
of bytes copied, so a string that does not fit (and the empty string) reports 0. -/
def zjs_copy_jstring (jstr : JVal) (maxlen : Nat) : String × Nat :=
  match jstr with
  | JVal.string s => if maxlen > s.utf8ByteSize then (s, s.utf8ByteSize) else ("", 0)
  | _ => ("", 0)

/-- Conversion of a stored (integral) number to `uint32_t`. -/
def to_uint32 (n : Int) : Nat := (n % 4294967296).toNat

/-! ## Emitter data -/

/-- The per-event object kept in the event map; `callback_id` is its property of
that name when it is a number. -/
structure EventObj where
  callback_id : Option Int
  deriving DecidableEq, Repr

/-- The hidden `event` object of an emitter: the `numEvents` and `maxListeners`
properties (when they are numbers) and the `map` object, whose own properties
are kept in enumeration order. -/
structure EventT where
  numEvents : Option Int
  maxListeners : Option Int
  map : List (String × EventObj)
  deriving DecidableEq, Repr

/-- Property read `zjs_get_property(map, event)`. -/
def map_get : List (String × EventObj) → String → Option EventObj
  | [], _ => none
  | (k, v) :: rest, name => if k = name then some v else map_get rest name

/-- Property write `zjs_set_property(map, event, event_obj)`: an existing
property keeps its place, a new one is added last. -/
def map_set : List (String × EventObj) → String → EventObj → List (String × EventObj)
  | [], name, o => [(name, o)]
  | (k, v) :: rest, name, o =>
      if k = name then (k, o) :: rest else (k, v) :: map_set rest name o

/-- Property removal `jerry_delete_property(map, name)`. -/
def map_delete : List (String × EventObj) → String → List (String × EventObj)
  | [], _ => []
  | (k, v) :: rest, name =>
      if k = name then map_delete rest name else (k, v) :: map_delete rest name

/-- Names of the map's properties, in enumeration order. -/
def map_names (m : List (String × EventObj)) : List String := m.map Prod.fst

/-- The native per-trigger context `event_trigger_t`. -/
structure EventTrigger where
  handle : Option Nat
  post : Option Nat
  deriving DecidableEq, Repr

/-- Post hooks known to the registry; the emitter always registers `post_event`. -/
inductive PostFn where
  | post_event
  | other (n : Nat)
  deriving DecidableEq, Repr

/-! ## Callback registry -/

/-- One script callback bound to a receiver and optional native side-data. -/
structure Listener where
  function : JVal
  receiver : JVal
  nativeContext : Option Nat
  deriving DecidableEq, Repr

/-- A registry slot. -/
structure CallbackSlot where
  id : Int
  listeners : List Listener
  nativeHandle : Option EventTrigger
  postHook : Option PostFn
  once : Bool
  deriving DecidableEq, Repr

/-- A deferred invocation queued by a signal. -/
structure PendingInvocation where
  slotId : Int
  args : List JVal
  deriving DecidableEq, Repr

/-- Modelled from the spec: the CallbackRegistry of §4.1 (`zjs_callbacks.c` is not
among the sources).  It owns the live slots and the FIFO queue of pending
invocations; `invoked` lists the script invocations performed so far as
(function, receiver, arguments). -/
structure CallbackRegistry where
  slots : List CallbackSlot
  pending : List PendingInvocation
  invoked : List (JVal × JVal × List JVal)
  deriving DecidableEq, Repr

/-- A call made into the registry, with its arguments. -/
inductive RegCall where
  | add_callback_list (js_func this : JVal) (handle : Option Nat) (post : PostFn) (id : Int)
  | remove_callback_list_func (id : Int) (js_func : JVal)
  | remove_callback (id : Int)
  | edit_callback_handle (id : Int) (trigger : EventTrigger)
  | signal_callback (id : Int) (args : List JVal)
  | call_callback (id : Int) (args : List JVal)
  | get_num_callbacks (id : Int)
  | get_callback_func_list (id : Int)
  deriving DecidableEq, Repr

/-- The state the emitter functions run in: the hidden `event` property of the
object at hand (absent when the object was never made an emitter), the
registry, the trace of registry calls made so far, and the outcomes of the
coming allocation requests (an exhausted list means success). -/
structure World where
  event : Option EventT
  cb : CallbackRegistry
  trace : List RegCall
  heap : List Bool
  deriving DecidableEq, Repr

/-- An allocation request: `zjs_malloc` and the registry's own allocations. -/
def zjs_malloc (w : World) : World × Bool :=
  match w.heap with
  | [] => (w, true)
  | b :: rest => ({ w with heap := rest }, b)

/-- The live slot with the given id. -/
def find_slot (slots : List CallbackSlot) (id : Int) : Option CallbackSlot :=
  slots.find? (fun s => decide (s.id = id))

/-- Smallest non-negative id that no live slot uses. -/
def fresh_id (slots : List CallbackSlot) : Int :=
  match (List.range (slots.length + 1)).find?
      (fun i => slots.all (fun s => decide (s.id ≠ (i : Int)))) with
  | some i => (i : Int)
  | none => (slots.length : Int)

/-- Replace the slot with the given id by its image under `f`. -/
def update_slot (slots : List CallbackSlot) (id : Int) (f : CallbackSlot → CallbackSlot) :
    List CallbackSlot :=
  slots.map (fun s => if s.id = id then f s else s)

/-- Remove the first listener whose function matches. -/
def remove_first_func : List Listener → JVal → List Listener
  | [], _ => []
  | l :: rest, f => if l.function = f then rest else l :: remove_first_func rest f

/-- Modelled from the spec: `addListener(function, receiver, nativeContext, postHook,
existingId) -> id`.  A live `existingId` gets the listener appended and is
returned; otherwise a fresh slot is allocated.  Allocation failure returns -1. -/
def zjs_add_callback_list (w : World) (js_func this : JVal) (handle : Option Nat)
    (post : PostFn) (id : Int) : World × Int :=
  let w1 := { w with trace := w.trace ++ [RegCall.add_callback_list js_func this handle post id] }
  let (w2, ok) := zjs_malloc w1
  if !ok then (w2, -1)
  else
    let l : Listener := { function := js_func, receiver := this, nativeContext := handle }
    match find_slot w2.cb.slots id with
    | some _ =>
        ({ w2 with cb := { w2.cb with
            slots := update_slot w2.cb.slots id
              (fun s => { s with listeners := s.listeners ++ [l] }) } }, id)
    | none =>
        let n := fresh_id w2.cb.slots
        ({ w2 with cb := { w2.cb with
            slots := w2.cb.slots ++
              [{ id := n, listeners := [l], nativeHandle := none,
                 postHook := some post, once := false }] } }, n)

/-- Modelled from the spec: `removeListenerFunc(id, function)`: removes the first
listener of the slot whose function matches; a slot left without listeners is
destroyed. -/
def zjs_remove_callback_list_func (w : World) (id : Int) (js_func : JVal) : World :=
  let w1 := { w with trace := w.trace ++ [RegCall.remove_callback_list_func id js_func] }
  match find_slot w1.cb.slots id with
  | none => w1
  | some s =>
      let ls := remove_first_func s.listeners js_func
      if ls = [] then
        { w1 with cb := { w1.cb with slots := w1.cb.slots.filter (fun t => decide (t.id ≠ id)) } }
      else
        { w1 with cb := { w1.cb with
            slots := update_slot w1.cb.slots id (fun t => { t with listeners := ls }) } }

/-- Modelled from the spec: `removeSlot(id)`: destroys the slot and its listeners. -/
def zjs_remove_callback (w : World) (id : Int) : World :=
  { w with
    trace := w.trace ++ [RegCall.remove_callback id]
    cb := { w.cb with slots := w.cb.slots.filter (fun t => decide (t.id ≠ id)) } }

/-- Modelled from the spec: `editNativeHandle(id, handle)`: replaces the slot's
native handle. -/
def zjs_edit_callback_handle (w : World) (id : Int) (trigger : EventTrigger) : World :=
  { w with
    trace := w.trace ++ [RegCall.edit_callback_handle id trigger]
    cb := { w.cb with
      slots := update_slot w.cb.slots id (fun s => { s with nativeHandle := some trigger }) } }

/-- Modelled from the spec: `signal(id, args) -> bool`: queues a pending invocation
with a copy of the arguments; false when the slot does not exist or allocation
fails.  No script code runs. -/
def zjs_signal_callback (w : World) (id : Int) (args : List JVal) : World × Bool :=
  let w1 := { w with trace := w.trace ++ [RegCall.signal_callback id args] }
  match find_slot w1.cb.slots id with
  | none => (w1, false)
  | some _ =>
      let (w2, ok) := zjs_malloc w1
      if !ok then (w2, false)
      else
        ({ w2 with cb := { w2.cb with
            pending := w2.cb.pending ++ [{ slotId := id, args := args }] } }, true)

/-- Modelled from the spec: `callNow(id, args) -> bool`: invokes every listener of
the slot in registration order, then destroys a `once` slot; false when the
slot does not exist. -/
def zjs_call_callback (w : World) (id : Int) (args : List JVal) : World × Bool :=
  let w1 := { w with trace := w.trace ++ [RegCall.call_callback id args] }
  match find_slot w1.cb.slots id with
  | none => (w1, false)
  | some s =>
      let calls := s.listeners.map (fun l => (l.function, l.receiver, args))
      let slots := if s.once then w1.cb.slots.filter (fun t => decide (t.id ≠ id))
                   else w1.cb.slots
      ({ w1 with cb := { w1.cb with invoked := w1.cb.invoked ++ calls, slots := slots } }, true)

/-- Modelled from the spec: `countListeners(id) -> uint`; zero for an unknown id. -/
def zjs_get_num_callbacks (w : World) (id : Int) : World × Nat :=
  let w1 := { w with trace := w.trace ++ [RegCall.get_num_callbacks id] }
  match find_slot w1.cb.slots id with
  | none => (w1, 0)
  | some s => (w1, s.listeners.length)

/-- Modelled from the spec: `listenerHandles(id) -> sequence<ValueHandle>`; empty for
an unknown id. -/
def zjs_get_callback_func_list (w : World) (id : Int) : World × List JVal :=
  let w1 := { w with trace := w.trace ++ [RegCall.get_callback_func_list id] }
  match find_slot w1.cb.slots id with
  | none => (w1, [])
  | some s => (w1, s.listeners.map (fun l => l.function))

/-! ## The emitter (`zjs_event.c`) -/

/-- `get_num_events`: the `numEvents` property as `uint32_t`, 0 when the emitter
has no such number. -/
def get_num_events (emitter : Option EventT) : Nat :=
  match emitter with
  | some em =>
      match em.numEvents with
      | some n => to_uint32 n
      | none => 0
  | none => 0

/-- `get_max_event_listeners`: the `maxListeners` property as `uint32_t`, 0 when
the emitter has no such number. -/
def get_max_event_listeners (emitter : Option EventT) : Nat :=
  match emitter with
  | some em =>
      match em.maxListeners with
      | some n => to_uint32 n
      | none => 0
  | none => 0

/-- `get_callback_id`: the stored callback id, -1 when there is none. -/
def get_callback_id (event_obj : EventObj) : Int :=
  match event_obj.callback_id with
  | some id => id
  | none => -1

/-- The two property reads `map = event_emitter.map; event_obj = map[event]`,
giving the event object when it is one. -/
def get_event_obj (emitter : Option EventT) (event : String) : Option EventObj :=
  match emitter with
  | some em => map_get em.map event
  | none => none

/-- `zjs_add_event_listener(obj, event, listener)`. -/
def zjs_add_event_listener (w : World) (obj : JVal) (event : String) (listener : JVal) :
    World :=
  match w.event with
  | none => w
  | some em =>
      let num_events := get_num_events (some em)
      let max_listeners := get_max_event_listeners (some em)
      if num_events >= max_listeners then w
      else
        let event_obj : EventObj :=
          match map_get em.map event with
          | some o => o
          | none => { callback_id := none }
        let callback_id := get_callback_id event_obj
        let r := zjs_add_callback_list w listener obj none PostFn.post_event callback_id
        let event_obj1 : EventObj := { event_obj with callback_id := some r.2 }
        let map := map_set em.map event event_obj1
        { r.1 with event := some { em with
            map := map, numEvents := some (((num_events + 1) % 4294967296 : Nat) : Int) } }

/-- Script function `on` / `addListener`. -/
def add_listener (w : World) (this : JVal) (argv : List JVal) : World × JVal :=
  if !validate_args [ArgType.Z_STRING, ArgType.Z_FUNCTION] argv then (w, invalid_args_error)
  else
    let name := zjs_copy_jstring (argv.getD 0 JVal.undefined) ZJS_MAX_EVENT_NAME_SIZE
    if name.2 = 0 then (w, JVal.error "event name is too long")
    else (zjs_add_event_listener w this name.1 (argv.getD 1 JVal.undefined), this)

/-- `zjs_trigger_event(obj, event, argv, argc, post, h)`. -/
def zjs_trigger_event (w : World) (event : String) (argv : List JVal)
    (post : Option Nat) (h : Option Nat) : World × Bool :=
  let m := zjs_malloc w
  if !m.2 then (m.1, false)
  else
    match get_event_obj m.1.event event with
    | none => (m.1, false)
    | some event_obj =>
        let callback_id := get_callback_id event_obj
        if callback_id = -1 then (m.1, false)
        else
          let trigger : EventTrigger := { handle := h, post := post }
          let w1 := zjs_edit_callback_handle m.1 callback_id trigger
          let s := zjs_signal_callback w1 callback_id argv
          (s.1, true)

/-- `zjs_trigger_event_now(obj, event, argv, argc, post, h)`. -/
def zjs_trigger_event_now (w : World) (event : String) (argv : List JVal)
    (post : Option Nat) (h : Option Nat) : World × Bool :=
  let m := zjs_malloc w
  if !m.2 then (m.1, false)
  else
    match get_event_obj m.1.event event with
    | none => (m.1, false)
    | some event_obj =>
        let callback_id := get_callback_id event_obj
        if callback_id = -1 then (m.1, false)
        else
          let trigger : EventTrigger := { handle := h, post := post }
          let w1 := zjs_edit_callback_handle m.1 callback_id trigger
          let s := zjs_call_callback w1 callback_id argv
          (s.1, true)

/-- Script function `emit`. -/
def emit_event (w : World) (_this : JVal) (argv : List JVal) : World × JVal :=
  if !validate_args [ArgType.Z_STRING] argv then (w, invalid_args_error)
  else
    let name := zjs_copy_jstring (argv.getD 0 JVal.undefined) ZJS_MAX_EVENT_NAME_SIZE
    if name.2 = 0 then (w, JVal.error "event name is too long")
    else
      let r := zjs_trigger_event w name.1 argv.tail none none
      (r.1, JVal.boolean r.2)

/-- Script function `removeListener`. -/
def remove_listener (w : World) (this : JVal) (argv : List JVal) : World × JVal :=
  if !validate_args [ArgType.Z_STRING, ArgType.Z_FUNCTION] argv then (w, invalid_args_error)
  else
    let name := zjs_copy_jstring (argv.getD 0 JVal.undefined) ZJS_MAX_EVENT_NAME_SIZE
    if name.2 = 0 then (w, JVal.error "event name is too long")
    else
      match get_event_obj w.event name.1 with
      | none => (w, JVal.undefined)
      | some event_obj =>
          let callback_id := get_callback_id event_obj
          if callback_id ≠ -1 then
            (zjs_remove_callback_list_func w callback_id (argv.getD 1 JVal.undefined), this)
          else (w, this)

/-- Script function `removeAllListeners`. -/
def remove_all_listeners (w : World) (this : JVal) (argv : List JVal) : World × JVal :=
  if !validate_args [ArgType.Z_STRING] argv then (w, invalid_args_error)
  else
    let name := zjs_copy_jstring (argv.getD 0 JVal.undefined) ZJS_MAX_EVENT_NAME_SIZE
    if name.2 = 0 then (w, JVal.error "event name is too long")
    else
      match w.event with
      | none => (w, JVal.undefined)
      | some em =>
          match map_get em.map name.1 with
          | none => (w, JVal.undefined)
          | some event_obj =>
              let callback_id := get_callback_id event_obj
              if callback_id ≠ -1 then
                let w1 := zjs_remove_callback w callback_id
                ({ w1 with event := some { em with
                    map := map_delete em.map name.1, numEvents := some 0 } }, this)
              else
                ({ w with event := some { em with numEvents := some 0 } }, this)

/-- `jerry_create_array(n)`: an array of `n` holes. -/
def jerry_create_array (n : Nat) : List JVal := List.replicate n JVal.undefined

/-- `jerry_set_property_by_index(array, idx, value)`: writing at or past the end
extends the array. -/
def jerry_set_property_by_index (a : List JVal) (idx : Nat) (v : JVal) : List JVal :=
  if idx < a.length then a.set idx v
  else a ++ List.replicate (idx - a.length) JVal.undefined ++ [v]

/-- The accumulator `event_names_t`. -/
structure EventNames where
  name_array : List JVal
  idx : Nat
  deriving DecidableEq, Repr

/-- `foreach_event_name(prop_name, prop_value, data)`. -/
def foreach_event_name (prop_name : String) (names : EventNames) : EventNames :=
  { name_array := jerry_set_property_by_index names.name_array names.idx (JVal.string prop_name)
    idx := names.idx + 1 }

/-- `jerry_foreach_object_property(map, foreach_event_name, &names)`. -/
def jerry_foreach_object_property : List (String × EventObj) → EventNames → EventNames
  | [], names => names
  | (k, _) :: rest, names => jerry_foreach_object_property rest (foreach_event_name k names)

/-- Script function `eventNames`. -/
def get_event_names (w : World) (_this : JVal) (_argv : List JVal) : World × JRet :=
  let num_events := get_num_events w.event
  let map := match w.event with
    | some em => em.map
    | none => []
  let names : EventNames := { name_array := jerry_create_array num_events, idx := 0 }
  (w, JRet.array (jerry_foreach_object_property map names).name_array)

/-- Script function `getMaxListeners`. -/
def get_max_listeners (w : World) (_this : JVal) (_argv : List JVal) : World × JVal :=
  (w, JVal.number (get_max_event_listeners w.event))

/-- Script function `setMaxListeners`. -/
def set_max_listeners (w : World) (this : JVal) (argv : List JVal) : World × JVal :=
  if !validate_args [ArgType.Z_NUMBER] argv then (w, invalid_args_error)
  else
    match argv.getD 0 JVal.undefined with
    | JVal.number num =>
        if num < 0 then (w, JVal.error "max listener value must be a positive integer")
        else
          match w.event with
          | some em => ({ w with event := some { em with maxListeners := some num } }, this)
          | none => (w, this)
    | _ => (w, invalid_args_error)

/-- Script function `listenerCount`. -/
def get_listener_count (w : World) (_this : JVal) (argv : List JVal) : World × JVal :=
  if !validate_args [ArgType.Z_STRING] argv then (w, invalid_args_error)
  else
    let name := zjs_copy_jstring (argv.getD 0 JVal.undefined) ZJS_MAX_EVENT_NAME_SIZE
    if name.2 = 0 then (w, JVal.error "event name is too long")
    else
      match get_event_obj w.event name.1 with
      | none => (w, JVal.number 0)
      | some event_obj =>
          let callback_id := get_callback_id event_obj
          if callback_id ≠ -1 then
            let r := zjs_get_num_callbacks w callback_id
            (r.1, JVal.number r.2)
          else (w, JVal.number 0)

/-- Script function `listeners`. -/
def get_listeners (w : World) (_this : JVal) (argv : List JVal) : World × JRet :=
  if !validate_args [ArgType.Z_STRING] argv then (w, JRet.value invalid_args_error)
  else
    let name := zjs_copy_jstring (argv.getD 0 JVal.undefined) ZJS_MAX_EVENT_NAME_SIZE
    if name.2 = 0 then (w, JRet.value (JVal.error "event name is too long"))
    else
      match get_event_obj w.event name.1 with
      | none => (w, JRet.value (JVal.error "event object not found"))
      | some event_obj =>
          let callback_id := get_callback_id event_obj
          if callback_id = -1 then (w, JRet.value JVal.undefined)
          else
            let r := zjs_get_callback_func_list w callback_id
            (r.1, JRet.array r.2)

/-- `zjs_make_event(obj, prototype)`: gives the object a fresh hidden emitter
record. -/
def zjs_make_event (w : World) : World :=
  let event_obj : EventT :=
    { maxListeners := some DEFAULT_MAX_LISTENERS, numEvents := some 0, map := [] }
  { w with event := some event_obj }

/-- A world in which the object has not been made an emitter and the registry
is empty. -/
def World.init : World :=
  { event := none, cb := { slots := [], pending := [], invoked := [] }, trace := [], heap := [] }

/-- A call of one of the three mutating script functions, with its arguments. -/
inductive Call where
  | addListener (argv : List JVal)
  | removeListener (argv : List JVal)
  | removeAllListeners (argv : List JVal)
  deriving DecidableEq, Repr

/-- Perform one call on the emitter `this`. -/
def step (this : JVal) (w : World) : Call → World
  | Call.addListener argv => (add_listener w this argv).1
  | Call.removeListener argv => (remove_listener w this argv).1
  | Call.removeAllListeners argv => (remove_all_listeners w this argv).1

/-- Perform a sequence of calls, first to last. -/
def run (this : JVal) : World → List Call → World
  | w, [] => w
  | w, c :: cs => run this (step this w c) cs

/-! ## Sample data -/

/-- An event name is acceptable to the script functions when it is non-empty
and fits the 24-byte buffer together with its terminator. -/
def valid_name (s : String) : Prop := 0 < s.utf8ByteSize ∧ s.utf8ByteSize < ZJS_MAX_EVENT_NAME_SIZE

instance (s : String) : Decidable (valid_name s) := by
  unfold valid_name; infer_instance

/-- The emitter object used in the examples. -/
def sample_emitter : JVal := JVal.object 0

/-- A freshly made emitter whose `maxListeners` was then set to `m`. -/
def fresh_with_max (w : World) (this : JVal) (m : Nat) : World :=
  (set_max_listeners (zjs_make_event w) this [JVal.number (m : Int)]).1

/-- Is the call a `removeAllListeners`. -/
def Call.is_remove_all : Call → Bool
  | Call.removeAllListeners _ => true
  | _ => false

/-- Emitter with `maxListeners = 1` on which `on("a", f1)` was accepted. -/
def sample_full : World :=
  run sample_emitter (fresh_with_max World.init sample_emitter 1)
    [Call.addListener [JVal.string "a", JVal.function 1]]

/-- Default emitter on which `on("a", f1)` was accepted. -/
def sample_one : World :=
  run sample_emitter (zjs_make_event World.init) [Call.addListener [JVal.string "a", JVal.function 1]]

/-- The hidden record of `sample_one`. -/
def sample_one_record : EventT :=
  { numEvents := some 1, maxListeners := some 10, map := [("a", { callback_id := some 0 })] }

/-- The hidden record of `sample_full`. -/
def sample_full_record : EventT :=
  { numEvents := some 1, maxListeners := some 1, map := [("a", { callback_id := some 0 })] }

/-- The bound kept by `on` and `removeListener`: the names of the event map are
pairwise distinct and at most `numEvents` many, and `numEvents` is at most the
cap. -/
def names_bounded (cap : Nat) (w : World) : Prop :=
  ∃ em, w.event = some em ∧ get_max_event_listeners w.event = cap ∧
    (map_names em.map).Nodup ∧ (map_names em.map).length ≤ get_num_events w.event ∧
    get_num_events w.event ≤ cap

/-- Register one listener, `fn n`, on each of the given names in turn, through
the script function. -/
def register_each (this : JVal) (w : World) (names : List String) (fn : String → Nat) : World :=
  run this w (names.map (fun n => Call.addListener [JVal.string n, JVal.function (fn n)]))

/-- Default emitter after `on("a", f1)` followed by `removeListener("a", f1)`. -/
def sample_removed : World :=
  run sample_emitter (zjs_make_event World.init)
    [Call.addListener [JVal.string "a", JVal.function 1],
     Call.removeListener [JVal.string "a", JVal.function 1]]

/-- Default emitter after `on("a", f1)` and `on("b", f2)`. -/
def sample_two : World :=
  run sample_emitter (zjs_make_event World.init)
    [Call.addListener [JVal.string "a", JVal.function 1],
     Call.addListener [JVal.string "b", JVal.function 2]]

/-- The hidden record of `sample_two`. -/
def sample_two_record : EventT :=
  { numEvents := some 2, maxListeners := some 10,
    map := [("a", { callback_id := some 0 }), ("b", { callback_id := some 1 })] }

/-! ## Emitter construction -/

/-- The native functions of `zjs_event.c` that `zjs_event_init` installs. -/
inductive NativeFn where
  | add_listener
  | emit_event
  | remove_listener
  | remove_all_listeners
  | get_event_names
  | get_max_listeners
  | get_listener_count
  | get_listeners
  | set_max_listeners
  deriving DecidableEq, Repr

/-- A property of the emitter prototype: a native function or a number. -/
inductive ProtoProp where
  | native (f : NativeFn)
  | number (n : Int)
  deriving DecidableEq, Repr

/-- `zjs_event_init()`: the emitter prototype, holding the functions of the
`array` table under their script names and then `defaultMaxListeners`. -/
def zjs_event_init : List (String × ProtoProp) :=
  [("on", ProtoProp.native NativeFn.add_listener),
   ("addListener", ProtoProp.native NativeFn.add_listener),
   ("emit", ProtoProp.native NativeFn.emit_event),
   ("removeListener", ProtoProp.native NativeFn.remove_listener),
   ("removeAllListeners", ProtoProp.native NativeFn.remove_all_listeners),
   ("eventNames", ProtoProp.native NativeFn.get_event_names),
   ("getMaxListeners", ProtoProp.native NativeFn.get_max_listeners),
   ("listenerCount", ProtoProp.native NativeFn.get_listener_count),
   ("listeners", ProtoProp.native NativeFn.get_listeners),
   ("setMaxListeners", ProtoProp.native NativeFn.set_max_listeners),
   ("defaultMaxListeners", ProtoProp.number DEFAULT_MAX_LISTENERS)]

/-- Property read on the emitter prototype. -/
def proto_get : List (String × ProtoProp) → String → Option ProtoProp
  | [], _ => none
  | (k, v) :: rest, name => if k = name then some v else proto_get rest name

/-- `event_constructor`: makes the new object `new_emitter` an emitter and
returns it; the world then describes that object. -/
def event_constructor (w : World) (_this : JVal) (_argv : List JVal) (new_emitter : JVal) :
    World × JVal :=
  (zjs_make_event w, new_emitter)

/-- Default emitter after `on("a", f1)` and `on("a", f2)`. -/
def sample_same_name : World :=
  run sample_emitter (zjs_make_event World.init)
    [Call.addListener [JVal.string "a", JVal.function 1],
     Call.addListener [JVal.string "a", JVal.function 2]]

/-- Default emitter after `on("x", f1)`, `on("x", f2)` and `on("x", f3)`. -/
def sample_three : World :=
  run sample_emitter (zjs_make_event World.init)
    [Call.addListener [JVal.string "x", JVal.function 1],
     Call.addListener [JVal.string "x", JVal.function 2],
     Call.addListener [JVal.string "x", JVal.function 3]]

/-- The hidden record of `sample_three`. -/
def sample_three_record : EventT :=
  { numEvents := some 3, maxListeners := some 10, map := [("x", { callback_id := some 0 })] }

/-- The slot of `"x"` in `sample_three`. -/
def sample_three_slot : CallbackSlot :=
  { id := 0,
    listeners :=
      [{ function := JVal.function 1, receiver := sample_emitter, nativeContext := none },
       { function := JVal.function 2, receiver := sample_emitter, nativeContext := none },
       { function := JVal.function 3, receiver := sample_emitter, nativeContext := none }],
    nativeHandle := none, postHook := some PostFn.post_event, once := false }

/-! ## The dispatch loop (`main.c`) -/

/-- The steps of one iteration of the dispatch loop. -/
inductive LoopStep where
  | timers_process_events
  | service_callbacks
  | service_routines
  | sleep (ms : Nat)
  deriving DecidableEq, Repr

/-- The routines the loop of `main` calls; they are defined outside the
sources and act on the state of the rest of the system. -/
structure LoopEnv (σ : Type) where
  zjs_timers_process_events : σ → σ
  zjs_service_callbacks : σ → σ
  zjs_service_routines : σ → σ
  zjs_sleep : Nat → σ → σ

/-- System state together with the log of loop steps performed. -/
structure LoopState (σ : Type) where
  state : σ
  log : List LoopStep

/-- The body of `while (1)` in `main`. -/
def main_loop_body {σ : Type} (env : LoopEnv σ) (s : LoopState σ) : LoopState σ :=
  let s1 : LoopState σ :=
    { state := env.zjs_timers_process_events s.state,
      log := s.log ++ [LoopStep.timers_process_events] }
  let s2 : LoopState σ :=
    { state := env.zjs_service_callbacks s1.state,
      log := s1.log ++ [LoopStep.service_callbacks] }
  let s3 : LoopState σ :=
    { state := env.zjs_service_routines s2.state,
      log := s2.log ++ [LoopStep.service_routines] }
  { state := env.zjs_sleep 1 s3.state, log := s3.log ++ [LoopStep.sleep 1] }

/-- The first `n` iterations of the loop of `main`, which itself never ends. -/
def main_loop {σ : Type} (env : LoopEnv σ) : Nat → LoopState σ → LoopState σ
  | 0, s => s
  | n + 1, s => main_loop env n (main_loop_body env s)

/-- The steps of one tick in the order the specification gives them. -/
def tick_steps : List LoopStep :=
  [LoopStep.timers_process_events, LoopStep.service_callbacks, LoopStep.service_routines,
   LoopStep.sleep 1]

/-- The steps of `n` ticks. -/
def ticks_log : Nat → List LoopStep
  | 0 => []
  | n + 1 => tick_steps ++ ticks_log n

/-! ## Buffers (`zjs_buffer.c`) -/

/-- An argument expectation of `ZJS_VALIDATE_ARGS`: the kinds accepted at this
position, and whether the argument may be missing (`Z_OPTIONAL`). -/
structure ArgSpec where
  optional : Bool
  kinds : List ArgType
  deriving DecidableEq, Repr

/-- Modelled from the spec: `ZJS_VALIDATE_ARGS` with `Z_OPTIONAL` expectations (its
definition is not among the sources).  Per §7(d) wrong type or arity is caught
before the body runs: an argument that is present must have one of the kinds
expected at its position, and only optional arguments may be missing. -/
def validate_arg_specs : List ArgSpec → List JVal → Bool
  | [], _ => true
  | s :: ss, [] => s.optional && validate_arg_specs ss []
  | s :: ss, v :: vs => s.kinds.any (fun t => v.has_type t) && validate_arg_specs ss vs

/-- Modelled from the spec: `zjs_buffer_t` (declared in `zjs_buffer.h`, which is not
among the sources): a flat native allocation of bytes, `buffer`, and its size
in bytes, `bufsize`, a `uint32_t`. -/
structure zjs_buffer_t where
  buffer : List (Fin 256)
  bufsize : Nat
  deriving DecidableEq, Repr

/-- The byte `buffer[i]`; an index outside the allocation reads as 0 here and is
reported through the list of accessed indices. -/
def zjs_buffer_t.byte (b : zjs_buffer_t) (i : Nat) : Nat := (b.buffer.getD i 0).val

/-- Result of a buffer function: the returned value, the buffer afterwards and
the indices of `buffer` it accessed, in order. -/
structure BufResult where
  ret : JVal
  buf : Option zjs_buffer_t
  accessed : List Nat
  deriving DecidableEq, Repr

/-- The loop of `zjs_buffer_read_bytes`: `n` iterations of
`value <<= 8; value |= buf->buffer[offset]; offset += dir` on `uint32_t`
variables. -/
def read_bytes_loop (b : zjs_buffer_t) (dir : Int) : Nat → Nat → Nat → List Nat → Nat × List Nat
  | 0, _, value, accessed => (value, accessed)
  | n + 1, offset, value, accessed =>
      read_bytes_loop b dir n (to_uint32 ((offset : Int) + dir))
        (((value <<< 8) % 4294967296) ||| b.byte offset) (accessed ++ [offset])

/-- `zjs_buffer_read_bytes(this, argv, argc, bytes, big_endian)`; `buf` is the
result of `zjs_buffer_find(this)`. -/
def zjs_buffer_read_bytes (buf : Option zjs_buffer_t) (argv : List JVal) (bytes : Nat)
    (big_endian : Bool) : BufResult :=
  if !validate_arg_specs [{ optional := true, kinds := [ArgType.Z_NUMBER] }] argv then
    { ret := invalid_args_error, buf := buf, accessed := [] }
  else
    let offset : Nat :=
      match argv with
      | JVal.number n :: _ => to_uint32 n
      | _ => 0
    match buf with
    | none =>
        { ret := JVal.error "zjs_buffer_read_bytes: buffer not found on read",
          buf := buf, accessed := [] }
    | some b =>
        if (offset + bytes) % 4294967296 > b.bufsize then
          { ret := JVal.error "zjs_buffer_read_bytes: read attempted beyond buffer",
            buf := buf, accessed := [] }
        else
          let dir : Int := if big_endian then 1 else -1
          let start : Nat :=
            if !big_endian then to_uint32 ((offset : Int) + ((bytes : Int) - 1)) else offset
          let r := read_bytes_loop b dir bytes start 0 []
          { ret := JVal.number (r.1 : Int), buf := buf, accessed := r.2 }

/-- The buffer with bytes `1, 2, 3, 4, 5`. -/
def sample_buffer : zjs_buffer_t :=
  { buffer := [1, 2, 3, 4, 5], bufsize := 5 }

/-- Whether `int32_t` represents the integer `n`.  C defines the conversion of a
double to `int32_t` only for values whose integral part is representable. -/
def int32_representable (n : Int) : Bool :=
  decide (-2147483648 ≤ n) && decide (n ≤ 2147483647)

/-- Conversion of an (integral) number to `int32_t` or `int`: a number that the
type represents converts to itself.  For the other numbers the conversion is
undefined in C; the function is continued there by two's complement
reduction, a value that stands for nothing the code does.
`zjs_buffer_write_bytes`, which stores the converted value, has no result for
those numbers, and the descriptor lookups of `zjs_fs.c` only compare the
converted number with descriptors of at most 31. -/
def to_int32 (n : Int) : Int := (n + 2147483648) % 4294967296 - 2147483648

/-- The loop of `zjs_buffer_write_bytes`: `n` iterations of
`buf->buffer[offset] = value & 0xff; value >>= 8; offset += dir` on `uint32_t`
variables.  A store outside the allocation leaves the modelled bytes as they
are and is reported through the list of accessed indices. -/
def write_bytes_loop (dir : Int) :
    Nat → Nat → Nat → List (Fin 256) → List Nat → List (Fin 256) × List Nat
  | 0, _, _, buffer, accessed => (buffer, accessed)
  | n + 1, offset, value, buffer, accessed =>
      write_bytes_loop dir n (to_uint32 ((offset : Int) + dir)) (value >>> 8)
        (buffer.set offset (Fin.ofNat (value &&& 255))) (accessed ++ [offset])

/-- `zjs_buffer_write_bytes(this, argv, argc, bytes, big_endian)`; `buf` is the
result of `zjs_buffer_find(this)`.  The result is `none` where the conversion
`(int32_t)` of the value to write is undefined, that is for a number that
`int32_t` does not represent. -/
def zjs_buffer_write_bytes (buf : Option zjs_buffer_t) (argv : List JVal) (bytes : Nat)
    (big_endian : Bool) : Option BufResult :=
  if !validate_arg_specs [{ optional := false, kinds := [ArgType.Z_NUMBER] },
      { optional := true, kinds := [ArgType.Z_NUMBER] }] argv then
    some { ret := invalid_args_error, buf := buf, accessed := [] }
  else
    let converted : Option Nat :=
      match argv with
      | JVal.number n :: _ =>
          if int32_representable n then some (to_uint32 (to_int32 n)) else none
      | _ => some 0
    match converted with
    | none => none
    | some value =>
        let offset : Nat :=
          match argv with
          | _ :: JVal.number n :: _ => to_uint32 n
          | _ => 0
        match buf with
        | none =>
            some { ret := JVal.error "zjs_buffer_write_bytes: buffer not found on write",
                   buf := buf, accessed := [] }
        | some b =>
            if (offset + bytes) % 4294967296 > b.bufsize then
              some { ret := JVal.error "zjs_buffer_write_bytes: write attempted beyond buffer",
                     buf := buf, accessed := [] }
            else
              let dir : Int := if big_endian then -1 else 1
              let start : Nat :=
                if big_endian then to_uint32 ((offset : Int) + ((bytes : Int) - 1)) else offset
              let r := write_bytes_loop dir bytes start value b.buffer []
              some { ret := JVal.undefined, buf := some { b with buffer := r.1 },
                     accessed := r.2 }

/-- `zjs_int_to_hex(value)`. -/
def zjs_int_to_hex (value : Nat) : Char :=
  if value < 10 then Char.ofNat ('0'.toNat + value)
  else Char.ofNat ('a'.toNat + value - 10)

/-- The `for` loop of the `hex` branch of `zjs_buffer_to_string`: for each of
the `n` remaining bytes, from index `i` on, the digits of the high and the low
nibble are appended to `hexbuf`; `buf->buffer[i]` is read twice. -/
def hex_loop (b : zjs_buffer_t) : Nat → Nat → List Char → List Nat → List Char × List Nat
  | 0, _, hexbuf, accessed => (hexbuf, accessed)
  | n + 1, i, hexbuf, accessed =>
      let high := (240 &&& b.byte i) >>> 4
      let low := 15 &&& b.byte i
      hex_loop b n (i + 1) (hexbuf ++ [zjs_int_to_hex high, zjs_int_to_hex low])
        (accessed ++ [i, i])

/-- `jerry_create_string` on a byte array: the bytes before the first NUL, and
the indices read (the terminator's included). -/
def read_c_string (bytes : List (Fin 256)) : List (Fin 256) × List Nat :=
  let content := bytes.takeWhile (fun x => decide (x ≠ 0))
  (content, List.range (content.length + 1))

/-- `zjs_buffer_to_string(function_obj, this, argv, argc)`; `buf` is the result
of `zjs_buffer_find(this)`.  The result is `none` where the function
dereferences the null pointer.  Bytes become the characters of the same
code. -/
def zjs_buffer_to_string (buf : Option zjs_buffer_t) (argv : List JVal) : Option BufResult :=
  if !validate_arg_specs [{ optional := true, kinds := [ArgType.Z_STRING] }] argv then
    some { ret := invalid_args_error, buf := buf, accessed := [] }
  else if buf.isSome && argv.length = 0 then
    some { ret := JVal.string "[Buffer Object]", buf := buf, accessed := [] }
  else
    let encoding := zjs_copy_jstring (argv.getD 0 JVal.undefined) 16
    if encoding.2 = 0 then
      some { ret := JVal.error "zjs_buffer_to_string: encoding argument too long",
             buf := buf, accessed := [] }
    else if encoding.1 = "ascii" then
      match buf with
      | none => none
      | some b =>
          let buffer := b.buffer.set b.bufsize 0
          let r := read_c_string buffer
          some { ret := JVal.string (String.mk (r.1.map (fun x => Char.ofNat x.val))),
                 buf := some { b with buffer := buffer },
                 accessed := [b.bufsize] ++ r.2 }
    else if encoding.1 = "hex" then
      match buf with
      | some b =>
          if b.bufsize > 0 then
            let r := hex_loop b b.bufsize 0 [] []
            some { ret := JVal.string (String.mk r.1), buf := buf, accessed := r.2 }
          else
            some { ret := JVal.error "zjs_buffer_to_string: buffer is empty",
                   buf := buf, accessed := [] }
      | none =>
          some { ret := JVal.error "zjs_buffer_to_string: buffer is empty",
                 buf := buf, accessed := [] }
    else
      some { ret := JVal.error "zjs_buffer_to_string: unsupported encoding type",
             buf := buf, accessed := [] }

/-- `zjs_buffer_create(size)` when both allocations succeed: `size` bytes of
storage with the given initial contents. -/
def zjs_buffer_create (contents : List (Fin 256)) : zjs_buffer_t :=
  { buffer := contents, bufsize := contents.length }

/-! ## File descriptors (`zjs_fs.c`) -/

/-- The `FileMode` enumeration. -/
inductive FileMode where
  | MODE_R
  | MODE_R_PLUS
  | MODE_W
  | MODE_W_PLUS
  | MODE_A
  | MODE_A_PLUS
  deriving DecidableEq, Repr

/-- `MAX_PATH_LENGTH`. -/
def MAX_PATH_LENGTH : Nat := 128

/-- `BIT_SET(a, i)`: `a |= 1 << i` on a `uint32_t`. -/
def BIT_SET (a i : Nat) : Nat := (a ||| (1 <<< i)) % 4294967296

/-- `BIT_CLR(a, i)`: `a &= ~(1 << i)` on a `uint32_t`; the complement is taken on
32 bits. -/
def BIT_CLR (a i : Nat) : Nat := a &&& (4294967295 ^^^ ((1 <<< i) % 4294967296))

/-- `IS_SET(a, i)`: `(a >> i) & 1`. -/
def IS_SET (a i : Nat) : Nat := (a >>> i) &&& 1

/-- The fields of `file_handle_t` other than the file object `fp` and the
list link `next`. -/
structure file_handle_t where
  fd : Nat
  mode : FileMode
  error : Int
  rpos : Nat
  deriving DecidableEq, Repr

/-- The static state of the module: the mask `fd_used` and the list
`opened_handles`, head first. -/
structure FsState where
  fd_used : Nat
  opened_handles : List file_handle_t
  deriving DecidableEq, Repr

/-- The state at start-up: `fd_used = 0`, `opened_handles = NULL`. -/
def FsState.init : FsState := { fd_used := 0, opened_handles := [] }

/-- Outcomes of the calls a file function makes outside the module during one
script call: the allocation and the file-system calls of the operating
system. -/
structure FsEnv where
  malloc_ok : Bool
  fs_stat : Int
  fs_open : Int
  fs_close : Int
  fs_mkdir : Int
  deriving DecidableEq, Repr

/-- `find_file(fd)`: the first handle of the list with this descriptor. -/
def find_file (handles : List file_handle_t) (fd : Int) : Option file_handle_t :=
  handles.find? (fun h => decide ((h.fd : Int) = fd))

/-- The `while` loop of `new_file`, started with `fd` and at most `fuel`
tests: the first descriptor from `fd` on whose bit is clear, `none` where the
loop returns `NULL`. -/
def new_file_scan (fd_used : Nat) : Nat → Nat → Option Nat
  | 0, _ => none
  | fuel + 1, fd =>
      if IS_SET fd_used fd ≠ 0 then
        if fd + 1 > 31 then none else new_file_scan fd_used fuel (fd + 1)
      else some fd

/-- `new_file()`: the state afterwards and the new handle, `none` for `NULL`. -/
def new_file (s : FsState) (env : FsEnv) : FsState × Option file_handle_t :=
  match new_file_scan s.fd_used 32 0 with
  | none => (s, none)
  | some fd =>
      if !env.malloc_ok then (s, none)
      else
        ({ s with fd_used := BIT_SET s.fd_used fd },
         some { fd := fd, mode := FileMode.MODE_R, error := 0, rpos := 0 })

/-- `free_file(handle)` for a handle of the list: unlinks it and clears its
bit.  Handles are compared as the pointers are; for a handle that is not in
the list nothing is done. -/
def free_file (s : FsState) (handle : file_handle_t) : FsState :=
  if handle ∈ s.opened_handles then
    { fd_used := BIT_CLR s.fd_used handle.fd,
      opened_handles := s.opened_handles.erase handle }
  else s

/-- `file_exists(path)`: whether `fs_stat` returned 0. -/
def file_exists (env : FsEnv) : Bool := decide (env.fs_stat = 0)

/-- `get_mode(str)`. -/
def get_mode (str : String) : FileMode :=
  if str = "r" then FileMode.MODE_R
  else if str = "r+" then FileMode.MODE_R_PLUS
  else if str = "w" then FileMode.MODE_W
  else if str = "w+" then FileMode.MODE_W_PLUS
  else if str = "a" then FileMode.MODE_A
  else if str = "a+" then FileMode.MODE_A_PLUS
  else FileMode.MODE_R

/-- `zjs_open` with `async = 0`, the script function `openSync`. -/
def zjs_open (s : FsState) (env : FsEnv) (argv : List JVal) : FsState × JVal :=
  if !validate_args [ArgType.Z_STRING, ArgType.Z_STRING] argv then (s, invalid_args_error)
  else
    let path := zjs_copy_jstring (argv.getD 0 JVal.undefined) MAX_PATH_LENGTH
    if path.2 = 0 then (s, JVal.error "size mismatch")
    else
      let mode := zjs_copy_jstring (argv.getD 1 JVal.undefined) 4
      if mode.2 = 0 then (s, JVal.error "size mismatch")
      else
        let m := get_mode mode.1
        if (m = FileMode.MODE_R || m = FileMode.MODE_R_PLUS) && !file_exists env then
          (s, JVal.error "file doesn't exist")
        else
          match new_file s env with
          | (s1, none) => (s1, JVal.error "malloc failed")
          | (s1, some handle) =>
              if env.fs_open ≠ 0 then (s1, JVal.error "could not open file")
              else
                let handle1 : file_handle_t := { handle with error := env.fs_open, mode := m }
                ({ s1 with opened_handles := handle1 :: s1.opened_handles },
                 JVal.number (handle1.fd : Int))

/-- `zjs_close` with `async = 0`, the script function `closeSync`. -/
def zjs_close (s : FsState) (_env : FsEnv) (argv : List JVal) : FsState × JVal :=
  if !validate_args [ArgType.Z_NUMBER] argv then (s, invalid_args_error)
  else
    match argv.getD 0 JVal.undefined with
    | JVal.number n =>
        match find_file s.opened_handles (to_int32 n) with
        | none => (s, JVal.error "file not found")
        | some handle => (free_file s handle, JVal.undefined)
    | _ => (s, invalid_args_error)

/-- `zjs_mkdir` with `async = 0`, the script function `mkdirSync`. -/
def zjs_mkdir (env : FsEnv) (argv : List JVal) : JVal :=
  if !validate_args [ArgType.Z_STRING] argv then invalid_args_error
  else
    let path := zjs_copy_jstring (argv.getD 0 JVal.undefined) MAX_PATH_LENGTH
    if path.2 = 0 then JVal.error "size mismatch"
    else if env.fs_mkdir = 0 then JVal.error "error creating directory"
    else JVal.undefined

/-- `zjs_write` with `async = 0`, the script function `writeSync`, up to the
test of the handle's mode; `transfer` stands for the rest of the function (the
buffer checks and the `fs_seek` and `fs_write` calls). -/
def zjs_write (s : FsState) (argv : List JVal) (transfer : file_handle_t → JVal) : JVal :=
  if !validate_arg_specs
      [{ optional := false, kinds := [ArgType.Z_NUMBER] },
       { optional := false, kinds := [ArgType.Z_OBJECT] },
       { optional := true, kinds := [ArgType.Z_NUMBER] },
       { optional := true, kinds := [ArgType.Z_NUMBER] },
       { optional := true, kinds := [ArgType.Z_NUMBER] }] argv then invalid_args_error
  else
    match argv.getD 0 JVal.undefined with
    | JVal.number n =>
        match find_file s.opened_handles (to_int32 n) with
        | none => JVal.error "file not found"
        | some handle =>
            if handle.mode = FileMode.MODE_R then JVal.error "file is not open for writing"
            else transfer handle
    | _ => invalid_args_error

/-- A call of `openSync` or `closeSync`, with its arguments. -/
inductive FsCall where
  | openSync (argv : List JVal)
  | closeSync (argv : List JVal)
  deriving DecidableEq, Repr

/-- Perform one call under the given outcomes of the outside calls. -/
def fs_step (s : FsState) : FsCall × FsEnv → FsState
  | (FsCall.openSync argv, env) => (zjs_open s env argv).1
  | (FsCall.closeSync argv, env) => (zjs_close s env argv).1

/-- Perform a sequence of calls, first to last. -/
def fs_run : FsState → List (FsCall × FsEnv) → FsState
  | s, [] => s
  | s, c :: cs => fs_run (fs_step s c) cs

/-- Outcomes in which every outside call succeeds. -/
def env_ok : FsEnv :=
  { malloc_ok := true, fs_stat := 0, fs_open := 0, fs_close := 0, fs_mkdir := 0 }

/-- Outcomes in which `fs_open` and `fs_mkdir` fail with -5 and `fs_stat`
finds no file. -/
def env_fail : FsEnv :=
  { malloc_ok := true, fs_stat := -2, fs_open := -5, fs_close := 0, fs_mkdir := -5 }

/-- The handles of the list have pairwise distinct descriptors, each at most
31 and each with its bit set in `fd_used`. -/
def fds_consistent (s : FsState) : Prop :=
  (s.opened_handles.map file_handle_t.fd).Nodup ∧
  ∀ h ∈ s.opened_handles, h.fd ≤ 31 ∧ IS_SET s.fd_used h.fd ≠ 0

/-! ## Properties -/

theorem add_listener_of_valid (w : World) (this : JVal) (e : String) (f : Nat)
    (rest : List JVal) (hv : valid_name e) :
    add_listener w this (JVal.string e :: JVal.function f :: rest)
      = (zjs_add_event_listener w this e (JVal.function f), this) := by
  obtain ⟨h0, h1⟩ := hv
  have h2 : ¬ e.utf8ByteSize = 0 := by omega
  simp [add_listener, validate_args, JVal.has_type, zjs_copy_jstring, ZJS_MAX_EVENT_NAME_SIZE] at *
  simp [h1, h2]

theorem zjs_add_event_listener_at_cap (w : World) (obj : JVal) (event : String) (listener : JVal)
    (hcap : get_max_event_listeners w.event ≤ get_num_events w.event) :
    zjs_add_event_listener w obj event listener = w := by
  unfold zjs_add_event_listener
  split
  · rfl
  · rename_i em hem
    rw [hem] at hcap
    simp [hcap]

theorem add_listener_at_cap (w : World) (this : JVal) (argv : List JVal)
    (hcap : get_max_event_listeners w.event ≤ get_num_events w.event) :
    (add_listener w this argv).1 = w := by
  unfold add_listener
  split
  · rfl
  · dsimp only
    split
    · rfl
    · exact zjs_add_event_listener_at_cap w _ _ _ hcap

/-- C1: when `numEvents >= maxListeners`, `on`/`addListener` for an event name without
an EventRecord rejects the registration: the whole state is returned as it was,
so no registry call is traced, no slot is created, and the event map,
`numEvents` and `maxListeners` are unchanged.  Both the native entry point and
the script function (for any argument list) behave so. -/
theorem C1_rejected_at_capacity (w : World) (em : EventT) (obj : JVal) (event : String)
    (listener : JVal) (hem : w.event = some em)
    (hcap : get_num_events w.event ≥ get_max_event_listeners w.event)
    (_hnew : map_get em.map event = none) :
    zjs_add_event_listener w obj event listener = w ∧
    (∀ argv : List JVal, (add_listener w obj argv).1 = w) ∧
    (zjs_add_event_listener w obj event listener).trace = w.trace ∧
    (zjs_add_event_listener w obj event listener).cb.slots = w.cb.slots ∧
    (zjs_add_event_listener w obj event listener).event = some em := by
  have h := zjs_add_event_listener_at_cap w obj event listener hcap
  refine ⟨h, fun argv => add_listener_at_cap w obj argv hcap, ?_, ?_, ?_⟩
  · rw [h]
  · rw [h]
  · rw [h, hem]

theorem C1_rejected_at_capacity_witness :
    zjs_add_event_listener sample_full sample_emitter "b" (JVal.function 2) = sample_full ∧
    (∀ argv : List JVal, (add_listener sample_full sample_emitter argv).1 = sample_full) ∧
    (zjs_add_event_listener sample_full sample_emitter "b" (JVal.function 2)).trace
      = sample_full.trace ∧
    (zjs_add_event_listener sample_full sample_emitter "b" (JVal.function 2)).cb.slots
      = sample_full.cb.slots ∧
    (zjs_add_event_listener sample_full sample_emitter "b" (JVal.function 2)).event
      = some { numEvents := some 1, maxListeners := some 1,
               map := [("a", { callback_id := some 0 })] } :=
  C1_rejected_at_capacity sample_full sample_full_record sample_emitter "b" (JVal.function 2)
    (by decide) (by decide) (by decide)

theorem find_slot_update_slot (slots : List CallbackSlot) (id : Int)
    (f : CallbackSlot → CallbackSlot) (hf : ∀ s, (f s).id = s.id) :
    find_slot (update_slot slots id f) id = (find_slot slots id).map f := by
  induction slots with
  | nil => rfl
  | cons s rest ih =>
    unfold find_slot update_slot at *
    by_cases h : s.id = id
    · simp [List.find?, h, hf]
    · simp [List.find?, h, ih]

theorem zjs_add_event_listener_accepted (w : World) (em : EventT) (obj : JVal) (event : String)
    (listener : JVal) (hem : w.event = some em)
    (hlt : get_num_events w.event < get_max_event_listeners w.event) :
    zjs_add_event_listener w obj event listener =
      { (zjs_add_callback_list w listener obj none PostFn.post_event
            (get_callback_id ((map_get em.map event).getD { callback_id := none }))).1 with
        event := some { em with
          map := map_set em.map event
            { callback_id := some (zjs_add_callback_list w listener obj none PostFn.post_event
                (get_callback_id ((map_get em.map event).getD { callback_id := none }))).2 }
          numEvents := some ((get_num_events w.event + 1 : Nat) : Int) } } := by
  have hlt2 : get_num_events w.event + 1 < 4294967296 := by
    have : get_max_event_listeners w.event < 4294967296 := by
      unfold get_max_event_listeners to_uint32
      split
      · split
        · omega
        · omega
      · omega
    omega
  unfold zjs_add_event_listener
  rw [hem] at hlt hlt2 ⊢
  have hn : ¬ get_max_event_listeners (some em) ≤ get_num_events (some em) := by omega
  simp only [ge_iff_le, hn, if_false]
  rw [Nat.mod_eq_of_lt hlt2]
  cases hg : map_get em.map event <;> simp

theorem zjs_malloc_event (w : World) : (zjs_malloc w).1.event = w.event := by
  unfold zjs_malloc; split <;> rfl

theorem zjs_malloc_trace (w : World) : (zjs_malloc w).1.trace = w.trace := by
  unfold zjs_malloc; split <;> rfl

theorem zjs_malloc_cb (w : World) : (zjs_malloc w).1.cb = w.cb := by
  unfold zjs_malloc; split <;> rfl

theorem zjs_add_callback_list_event (w : World) (f t : JVal) (h : Option Nat) (p : PostFn)
    (id : Int) : (zjs_add_callback_list w f t h p id).1.event = w.event := by
  unfold zjs_add_callback_list
  simp only []
  split
  · simp [zjs_malloc_event]
  · split <;> simp [zjs_malloc_event]

theorem zjs_add_callback_list_trace (w : World) (f t : JVal) (h : Option Nat) (p : PostFn)
    (id : Int) : (zjs_add_callback_list w f t h p id).1.trace
      = w.trace ++ [RegCall.add_callback_list f t h p id] := by
  unfold zjs_add_callback_list
  simp only []
  split
  · simp [zjs_malloc_trace]
  · split <;> simp [zjs_malloc_trace]

theorem get_num_events_set (em : EventT) (n : Nat) (m : List (String × EventObj))
    (h : n < 4294967296) :
    get_num_events (some { em with map := m, numEvents := some (n : Int) }) = n := by
  simp only [get_num_events, to_uint32]
  omega

theorem get_max_event_listeners_lt (e : Option EventT) :
    get_max_event_listeners e < 4294967296 := by
  unfold get_max_event_listeners to_uint32
  split
  · split <;> omega
  · omega

/-- C2 (as stated, refuted): on an emitter with `maxListeners = 1` where `"a"` already
has an EventRecord and `numEvents = 1`, a further `on("a", f2)` is not accepted:
the state comes back as it was (no registry call) and the slot of `"a"` still
holds one listener. -/
theorem C2_registered_name_rejected_at_cap :
    get_event_obj sample_full.event "a" = some { callback_id := some 0 } ∧
    get_num_events sample_full.event ≥ get_max_event_listeners sample_full.event ∧
    add_listener sample_full sample_emitter [JVal.string "a", JVal.function 2]
      = (sample_full, sample_emitter) ∧
    (get_listener_count
      (add_listener sample_full sample_emitter [JVal.string "a", JVal.function 2]).1
      sample_emitter [JVal.string "a"]).2 = JVal.number 1 := by
  decide

/-- C2 (amended): for an event name `e` that already has an EventRecord, `on`/`addListener`
succeeds exactly while `numEvents < maxListeners`: it then calls the registry's
`addListener` with the id stored in the record as `existingId` (receiver the
emitter, no native context, post hook `post_event`), and when that id denotes a
live slot and the allocation succeeds the listener is appended to that slot;
once `numEvents >= maxListeners` the call is rejected like one for a new name,
with the state unchanged. -/
theorem C2_registered_name_accepted_below_cap (w : World) (em : EventT) (obj : JVal)
    (e : String) (o : EventObj) (listener : JVal) (hem : w.event = some em)
    (hrec : map_get em.map e = some o) :
    (get_num_events w.event < get_max_event_listeners w.event →
      (zjs_add_event_listener w obj e listener).trace =
        w.trace ++ [RegCall.add_callback_list listener obj none PostFn.post_event
          (get_callback_id o)] ∧
      (∀ s, find_slot w.cb.slots (get_callback_id o) = some s → w.heap.head? ≠ some false →
        find_slot (zjs_add_event_listener w obj e listener).cb.slots (get_callback_id o) =
          some { s with listeners := s.listeners ++
            [{ function := listener, receiver := obj, nativeContext := none }] })) ∧
    (get_num_events w.event ≥ get_max_event_listeners w.event →
      zjs_add_event_listener w obj e listener = w) := by
  refine ⟨fun hlt => ?_, fun hcap => zjs_add_event_listener_at_cap w obj e listener hcap⟩
  rw [zjs_add_event_listener_accepted w em obj e listener hem hlt, hrec]
  refine ⟨?_, ?_⟩
  · simp [zjs_add_callback_list_trace]
  · intro s hs hheap
    simp only [Option.getD_some]
    unfold zjs_add_callback_list zjs_malloc
    cases hh : w.heap with
    | nil =>
      simp [hs, find_slot_update_slot]
    | cons b rest =>
      cases b with
      | false => simp [hh] at hheap
      | true => simp [hs, find_slot_update_slot]

theorem C2_registered_name_accepted_below_cap_witness :
    (get_num_events sample_one.event < get_max_event_listeners sample_one.event →
      (zjs_add_event_listener sample_one sample_emitter "a" (JVal.function 2)).trace =
        sample_one.trace ++ [RegCall.add_callback_list (JVal.function 2) sample_emitter none
          PostFn.post_event (get_callback_id { callback_id := some 0 })] ∧
      (∀ s, find_slot sample_one.cb.slots (get_callback_id { callback_id := some 0 }) = some s →
        sample_one.heap.head? ≠ some false →
        find_slot (zjs_add_event_listener sample_one sample_emitter "a" (JVal.function 2)).cb.slots
            (get_callback_id { callback_id := some 0 }) =
          some { s with listeners := s.listeners ++
            [{ function := JVal.function 2, receiver := sample_emitter,
               nativeContext := none }] })) ∧
    (get_num_events sample_one.event ≥ get_max_event_listeners sample_one.event →
      zjs_add_event_listener sample_one sample_emitter "a" (JVal.function 2) = sample_one) :=
  C2_registered_name_accepted_below_cap sample_one sample_one_record sample_emitter "a"
    { callback_id := some 0 } (JVal.function 2)
    (by decide) (by decide)

/-- C3 (as stated, refuted): on a default emitter where `"a"` already has an EventRecord
and `numEvents = 1`, an accepted `on("a", f2)` raises `numEvents` to 2 although
no EventRecord was created. -/
theorem C3_existing_name_increments :
    get_event_obj sample_one.event "a" = some { callback_id := some 0 } ∧
    get_num_events sample_one.event = 1 ∧
    get_num_events
      (add_listener sample_one sample_emitter [JVal.string "a", JVal.function 2]).1.event = 2 ∧
    map_names (((add_listener sample_one sample_emitter
      [JVal.string "a", JVal.function 2]).1.event.getD
        { numEvents := none, maxListeners := none, map := [] }).map) = ["a"] := by
  decide

/-- C3 (amended): every accepted `on`/`addListener` call (emitter present and
`numEvents < maxListeners`) increments `numEvents` by exactly one, whether the
EventRecord for the name was newly created or already there; the same holds
through the script function for a name of acceptable length. -/
theorem C3_accepted_increments (w : World) (em : EventT) (obj : JVal) (e : String)
    (listener : JVal) (hem : w.event = some em)
    (hlt : get_num_events w.event < get_max_event_listeners w.event) :
    get_num_events (zjs_add_event_listener w obj e listener).event
      = get_num_events w.event + 1 ∧
    (∀ (f : Nat) (rest : List JVal), valid_name e →
      get_num_events (add_listener w obj (JVal.string e :: JVal.function f :: rest)).1.event
        = get_num_events w.event + 1) := by
  have hmax := get_max_event_listeners_lt w.event
  have key : ∀ l : JVal, get_num_events (zjs_add_event_listener w obj e l).event
      = get_num_events w.event + 1 := by
    intro l
    rw [zjs_add_event_listener_accepted w em obj e l hem hlt]
    exact get_num_events_set em _ _ (by omega)
  refine ⟨key listener, fun f rest hv => ?_⟩
  rw [add_listener_of_valid w obj e f rest hv]
  exact key _

theorem C3_accepted_increments_witness :
    get_num_events (zjs_add_event_listener sample_one sample_emitter "a" (JVal.function 2)).event
      = get_num_events sample_one.event + 1 ∧
    (∀ (f : Nat) (rest : List JVal), valid_name "a" →
      get_num_events
        (add_listener sample_one sample_emitter (JVal.string "a" :: JVal.function f :: rest)).1.event
        = get_num_events sample_one.event + 1) :=
  C3_accepted_increments sample_one sample_one_record sample_emitter "a" (JVal.function 2)
    (by decide) (by decide)

theorem map_names_set_of_mem (m : List (String × EventObj)) (e : String) (o : EventObj)
    (h : e ∈ map_names m) : map_names (map_set m e o) = map_names m := by
  induction m with
  | nil => simp [map_names] at h
  | cons p rest ih =>
    obtain ⟨k, v⟩ := p
    unfold map_set
    by_cases hk : k = e
    · simp [hk, map_names]
    · have hr : e ∈ map_names rest := by
        simp only [map_names, List.map_cons, List.mem_cons] at h
        rcases h with h | h
        · exact absurd h.symm hk
        · exact h
      simp only [hk, if_false]
      simp only [map_names, List.map_cons] at ih ⊢
      rw [ih hr]

theorem map_names_set_of_not_mem (m : List (String × EventObj)) (e : String) (o : EventObj)
    (h : e ∉ map_names m) : map_names (map_set m e o) = map_names m ++ [e] := by
  induction m with
  | nil => rfl
  | cons p rest ih =>
    obtain ⟨k, v⟩ := p
    unfold map_set
    simp only [map_names, List.map_cons, List.mem_cons, not_or] at h
    have hk : ¬ k = e := fun hke => h.1 hke.symm
    simp only [hk, if_false]
    simp only [map_names, List.map_cons, List.cons_append] at ih ⊢
    rw [ih h.2]

theorem map_get_eq_none_iff (m : List (String × EventObj)) (e : String) :
    map_get m e = none ↔ e ∉ map_names m := by
  induction m with
  | nil => simp [map_get, map_names]
  | cons p rest ih =>
    obtain ⟨k, v⟩ := p
    unfold map_get
    by_cases hk : k = e
    · simp [hk, map_names]
    · have hk2 : ¬ e = k := fun h => hk h.symm
      simp only [hk, if_false, ih, map_names, List.map_cons, List.mem_cons, hk2, false_or]

theorem zjs_remove_callback_list_func_event (w : World) (id : Int) (f : JVal) :
    (zjs_remove_callback_list_func w id f).event = w.event := by
  unfold zjs_remove_callback_list_func
  dsimp only
  split
  · rfl
  · split <;> rfl

theorem remove_listener_event (w : World) (this : JVal) (argv : List JVal) :
    (remove_listener w this argv).1.event = w.event := by
  unfold remove_listener
  split
  · rfl
  · dsimp only
    split
    · rfl
    · split
      · rfl
      · split
        · exact zjs_remove_callback_list_func_event _ _ _
        · rfl

theorem names_bounded_add (cap : Nat) (w : World) (obj : JVal) (e : String) (l : JVal)
    (h : names_bounded cap w) : names_bounded cap (zjs_add_event_listener w obj e l) := by
  obtain ⟨em, hem, hmax, hnd, hlen, hle⟩ := h
  by_cases hcap : get_max_event_listeners w.event ≤ get_num_events w.event
  · rw [zjs_add_event_listener_at_cap w obj e l hcap]
    exact ⟨em, hem, hmax, hnd, hlen, hle⟩
  · have hlt : get_num_events w.event < get_max_event_listeners w.event := by omega
    have hmaxlt := get_max_event_listeners_lt w.event
    rw [zjs_add_event_listener_accepted w em obj e l hem hlt]
    refine ⟨_, rfl, ?_, ?_, ?_, ?_⟩
    · rw [hem] at hmax
      simpa [get_max_event_listeners] using hmax
    · dsimp only
      by_cases hin : e ∈ map_names em.map
      · rw [map_names_set_of_mem _ _ _ hin]; exact hnd
      · rw [map_names_set_of_not_mem _ _ _ hin]
        exact List.Nodup.append hnd (List.nodup_singleton e) (by simpa using hin)
    · rw [get_num_events_set em _ _ (by omega)]
      dsimp only
      by_cases hin : e ∈ map_names em.map
      · rw [map_names_set_of_mem _ _ _ hin]; omega
      · rw [map_names_set_of_not_mem _ _ _ hin]; simp; omega
    · rw [get_num_events_set em _ _ (by omega)]
      omega

theorem names_bounded_step (cap : Nat) (this : JVal) (w : World) (c : Call)
    (hc : c.is_remove_all = false) (h : names_bounded cap w) :
    names_bounded cap (step this w c) := by
  cases c with
  | addListener argv =>
    show names_bounded cap (add_listener w this argv).1
    unfold add_listener
    split
    · exact h
    · dsimp only
      split
      · exact h
      · exact names_bounded_add cap w _ _ _ h
  | removeListener argv =>
    obtain ⟨em, hem, hrest⟩ := h
    have he := remove_listener_event w this argv
    show names_bounded cap (remove_listener w this argv).1
    refine ⟨em, by rw [he, hem], ?_⟩
    rw [he]
    exact hrest
  | removeAllListeners argv => simp [Call.is_remove_all] at hc

theorem names_bounded_run (cap : Nat) (this : JVal) (calls : List Call) (w : World)
    (hc : ∀ c ∈ calls, c.is_remove_all = false) (h : names_bounded cap w) :
    names_bounded cap (run this w calls) := by
  induction calls generalizing w with
  | nil => exact h
  | cons c cs ih =>
    unfold run
    exact ih _ (fun d hd => hc d (List.mem_cons_of_mem _ hd))
      (names_bounded_step cap this w c (hc c (List.mem_cons_self _ _)) h)

theorem fresh_with_max_event (w : World) (this : JVal) (m : Nat) :
    (fresh_with_max w this m).event
      = some { numEvents := some 0, maxListeners := some (m : Int), map := [] } := by
  have hm : ¬ ((m : Int) < 0) := by omega
  unfold fresh_with_max set_max_listeners zjs_make_event
  simp [validate_args, JVal.has_type, DEFAULT_MAX_LISTENERS, hm]

/-- C4 (as stated, refuted): with `maxListeners = 2`, after `on("a")`, `on("b")`,
`removeAllListeners("a")`, `on("c")`, `on("d")` the event map holds the three
names `b`, `c`, `d`. -/
theorem C4_three_names_under_cap_two :
    map_names (((run sample_emitter (fresh_with_max World.init sample_emitter 2)
      [Call.addListener [JVal.string "a", JVal.function 1],
       Call.addListener [JVal.string "b", JVal.function 2],
       Call.removeAllListeners [JVal.string "a"],
       Call.addListener [JVal.string "c", JVal.function 3],
       Call.addListener [JVal.string "d", JVal.function 4]]).event.getD
        { numEvents := none, maxListeners := none, map := [] }).map) = ["b", "c", "d"] ∧
    ¬ (["b", "c", "d"].length ≤ 2) := by
  decide

/-- C4 (amended): in every state reachable from a freshly made emitter whose
`maxListeners` was set to `m` by any sequence of `on`/`addListener` and
`removeListener` calls (no `removeAllListeners`), the names holding an
EventRecord are pairwise distinct, there are at most `numEvents` of them, and
`numEvents` is at most `m`. -/
theorem C4_names_bounded_without_remove_all (w0 : World) (this : JVal) (m : Nat)
    (calls : List Call) (hc : ∀ c ∈ calls, c.is_remove_all = false) :
    ∃ em, (run this (fresh_with_max w0 this m) calls).event = some em ∧
      (map_names em.map).Nodup ∧
      (map_names em.map).length ≤ get_num_events (some em) ∧
      get_num_events (some em) ≤ m := by
  have h0 : names_bounded (to_uint32 (m : Int)) (fresh_with_max w0 this m) := by
    refine ⟨_, fresh_with_max_event w0 this m, ?_, ?_, ?_, ?_⟩
    · rw [fresh_with_max_event]; rfl
    · simp [map_names]
    · rw [fresh_with_max_event]; simp [map_names]
    · rw [fresh_with_max_event]; simp [get_num_events, to_uint32]
  obtain ⟨em, hem, _, hnd, hlen, hle⟩ :=
    names_bounded_run (to_uint32 (m : Int)) this calls _ hc h0
  refine ⟨em, hem, hnd, ?_, ?_⟩
  · rw [← hem]; exact hlen
  · rw [← hem]
    have : to_uint32 (m : Int) ≤ m := by unfold to_uint32; omega
    omega

theorem C4_names_bounded_without_remove_all_witness :
    ∃ em, (run sample_emitter (fresh_with_max World.init sample_emitter 2)
        [Call.addListener [JVal.string "a", JVal.function 1],
         Call.addListener [JVal.string "b", JVal.function 2],
         Call.removeListener [JVal.string "a", JVal.function 1],
         Call.addListener [JVal.string "c", JVal.function 3]]).event = some em ∧
      (map_names em.map).Nodup ∧
      (map_names em.map).length ≤ get_num_events (some em) ∧
      get_num_events (some em) ≤ 2 :=
  C4_names_bounded_without_remove_all World.init sample_emitter 2 _ (by decide)

theorem set_after_done (done : List JVal) (k : Nat) (v : JVal) :
    jerry_set_property_by_index (done ++ List.replicate k JVal.undefined) done.length v
      = (done ++ [v]) ++ List.replicate (k - 1) JVal.undefined := by
  unfold jerry_set_property_by_index
  cases k with
  | zero => simp
  | succ k =>
    have h : done.length < (done ++ List.replicate (k + 1) JVal.undefined).length := by
      simp
    rw [if_pos h]
    induction done with
    | nil => simp [List.replicate_succ]
    | cons d ds ih =>
      have h2 : ds.length < (ds ++ List.replicate (k + 1) JVal.undefined).length := by simp
      simpa using ih h2

theorem foreach_names (rest : List (String × EventObj)) (done : List JVal) (k : Nat) :
    jerry_foreach_object_property rest
        { name_array := done ++ List.replicate k JVal.undefined, idx := done.length }
      = { name_array := done ++ (map_names rest).map JVal.string
            ++ List.replicate (k - rest.length) JVal.undefined,
          idx := done.length + rest.length } := by
  induction rest generalizing done k with
  | nil => simp [jerry_foreach_object_property, map_names]
  | cons p rest ih =>
    obtain ⟨key, v⟩ := p
    unfold jerry_foreach_object_property foreach_event_name
    dsimp only
    rw [set_after_done]
    have hl : done.length + 1 = (done ++ [JVal.string key]).length := by simp
    rw [hl, ih]
    have hk : k - 1 - rest.length = k - (rest.length + 1) := by omega
    simp [map_names, hk]
    omega

theorem get_event_names_eq (w : World) (em : EventT) (this : JVal) (argv : List JVal)
    (hem : w.event = some em) :
    (get_event_names w this argv).2 = JRet.array ((map_names em.map).map JVal.string
      ++ List.replicate (get_num_events w.event - em.map.length) JVal.undefined) := by
  unfold get_event_names jerry_create_array
  have h := foreach_names em.map [] (get_num_events w.event)
  simp only [List.nil_append, List.length_nil] at h
  simp only [hem] at h ⊢
  rw [h]

theorem register_each_spec (this : JVal) (fn : String → Nat) (ns : List String) :
    ∀ (w : World) (em : EventT) (k : Nat), w.event = some em →
      em.numEvents = some (k : Int) →
      k + ns.length ≤ get_max_event_listeners (some em) →
      (map_names em.map ++ ns).Nodup →
      (∀ n ∈ ns, valid_name n) →
      ∃ em2, (register_each this w ns fn).event = some em2 ∧
        em2.maxListeners = em.maxListeners ∧
        em2.numEvents = some ((k + ns.length : Nat) : Int) ∧
        map_names em2.map = map_names em.map ++ ns := by
  induction ns with
  | nil =>
    intro w em k hem hnum _ _ _
    exact ⟨em, hem, rfl, by simpa using hnum, by simp⟩
  | cons n ns ih =>
    intro w em k hem hnum hcap hnd hv
    have hmaxlt := get_max_event_listeners_lt (some em)
    simp only [List.length_cons] at hcap
    have hk : get_num_events w.event = k := by
      rw [hem]; simp only [get_num_events, hnum, to_uint32]; omega
    have hlt : get_num_events w.event < get_max_event_listeners w.event := by
      rw [hk, hem]; omega
    have hn : n ∉ map_names em.map := by
      intro hmem
      have := List.disjoint_of_nodup_append hnd hmem
      exact this (List.mem_cons_self _ _)
    have hstep : register_each this w (n :: ns) fn
        = register_each this (zjs_add_event_listener w this n (JVal.function (fn n))) ns fn := by
      show run this _ _ = run this _ _
      simp only [List.map_cons, run, step]
      rw [add_listener_of_valid w this n (fn n) [] (hv n (List.mem_cons_self _ _))]
    rw [hstep, zjs_add_event_listener_accepted w em this n _ hem hlt, hk]
    have hrec := ih
      { (zjs_add_callback_list w (JVal.function (fn n)) this none PostFn.post_event
            (get_callback_id ((map_get em.map n).getD { callback_id := none }))).1 with
        event := some { em with
          map := map_set em.map n
            { callback_id := some (zjs_add_callback_list w (JVal.function (fn n)) this none
                PostFn.post_event
                (get_callback_id ((map_get em.map n).getD { callback_id := none }))).2 }
          numEvents := some ((k + 1 : Nat) : Int) } }
      _ (k + 1) rfl rfl
      (by simp only [get_max_event_listeners] at hcap ⊢; omega)
      (by
        dsimp only
        rw [map_names_set_of_not_mem _ _ _ hn]
        simpa using hnd)
      (fun x hx => hv x (List.mem_cons_of_mem _ hx))
    obtain ⟨em2, h1, h2, h3, h4⟩ := hrec
    refine ⟨em2, h1, h2, ?_, ?_⟩
    · rw [h3]; congr 2; simp only [List.length_cons]; omega
    · rw [h4]
      dsimp only
      rw [map_names_set_of_not_mem _ _ _ hn]
      simp

/-- C5: on a freshly made emitter on which `setMaxListeners(m)` was called (`m >= 1`, a
`uint32` value), registering one listener on each of `m` pairwise distinct names
of acceptable length is accepted (the event map then holds exactly these names,
in this order); registering a listener for any further name is rejected with the
state unchanged, so no EventRecord is created for it; and `eventNames()` then
returns exactly the `m` accepted names in map order. -/
theorem C5_capacity_scenario (w0 : World) (this : JVal) (m : Nat) (names : List String)
    (fn : String → Nat) (hm1 : 1 ≤ m) (hm2 : m < 4294967296) (hlen : names.length = m)
    (hnd : names.Nodup) (hvalid : ∀ n ∈ names, valid_name n) :
    (∃ em, (register_each this (fresh_with_max w0 this m) names fn).event = some em ∧
      map_names em.map = names ∧ em.map.length = m) ∧
    (∀ (extra : String) (g : Nat), extra ∉ names →
      (add_listener (register_each this (fresh_with_max w0 this m) names fn) this
          [JVal.string extra, JVal.function g]).1
        = register_each this (fresh_with_max w0 this m) names fn ∧
      get_event_obj (add_listener (register_each this (fresh_with_max w0 this m) names fn) this
          [JVal.string extra, JVal.function g]).1.event extra = none ∧
      (get_event_names
          (add_listener (register_each this (fresh_with_max w0 this m) names fn) this
            [JVal.string extra, JVal.function g]).1 this []).2
        = JRet.array (names.map JVal.string)) := by
  have _ := hm1
  have hmax : get_max_event_listeners
      (some { numEvents := some 0, maxListeners := some (m : Int), map := [] }) = m := by
    simp only [get_max_event_listeners, to_uint32]; omega
  obtain ⟨em, hem, hmaxl, hnum, hmap⟩ :=
    register_each_spec this fn names (fresh_with_max w0 this m) _ 0
      (fresh_with_max_event w0 this m) rfl (by rw [hmax]; omega)
      (by simpa [map_names] using hnd) hvalid
  simp only [map_names, List.map_nil, List.nil_append] at hmap
  have hmap2 : map_names em.map = names := hmap
  have hlen2 : em.map.length = m := by
    have := congrArg List.length hmap2
    simpa [map_names, hlen] using this
  have hnumev : get_num_events (register_each this (fresh_with_max w0 this m) names fn).event
      = m := by
    rw [hem]; simp only [get_num_events, hnum, to_uint32]; omega
  have hmaxev : get_max_event_listeners
      (register_each this (fresh_with_max w0 this m) names fn).event = m := by
    rw [hem]
    simp only [get_max_event_listeners, hmaxl, to_uint32]; omega
  have hcap : get_max_event_listeners
        (register_each this (fresh_with_max w0 this m) names fn).event
      ≤ get_num_events (register_each this (fresh_with_max w0 this m) names fn).event := by
    rw [hnumev, hmaxev]
  refine ⟨⟨em, hem, hmap2, hlen2⟩, fun extra g hextra => ?_⟩
  have hrej := add_listener_at_cap (register_each this (fresh_with_max w0 this m) names fn)
    this [JVal.string extra, JVal.function g] hcap
  rw [hrej]
  refine ⟨rfl, ?_, ?_⟩
  · rw [hem]
    show map_get em.map extra = none
    rw [map_get_eq_none_iff, hmap2]
    exact hextra
  · rw [get_event_names_eq _ em this [] hem, hnumev, hlen2, hmap2]
    simp

theorem C5_capacity_scenario_witness :
    (∃ em, (register_each sample_emitter (fresh_with_max World.init sample_emitter 2)
        ["a", "b"] (fun _ => 1)).event = some em ∧
      map_names em.map = ["a", "b"] ∧ em.map.length = 2) ∧
    (∀ (extra : String) (g : Nat), extra ∉ ["a", "b"] →
      (add_listener (register_each sample_emitter (fresh_with_max World.init sample_emitter 2)
          ["a", "b"] (fun _ => 1)) sample_emitter [JVal.string extra, JVal.function g]).1
        = register_each sample_emitter (fresh_with_max World.init sample_emitter 2)
          ["a", "b"] (fun _ => 1) ∧
      get_event_obj (add_listener
          (register_each sample_emitter (fresh_with_max World.init sample_emitter 2)
            ["a", "b"] (fun _ => 1)) sample_emitter
          [JVal.string extra, JVal.function g]).1.event extra = none ∧
      (get_event_names
          (add_listener (register_each sample_emitter (fresh_with_max World.init sample_emitter 2)
            ["a", "b"] (fun _ => 1)) sample_emitter
            [JVal.string extra, JVal.function g]).1 sample_emitter []).2
        = JRet.array (["a", "b"].map JVal.string)) :=
  C5_capacity_scenario World.init sample_emitter 2 ["a", "b"] (fun _ => 1)
    (by decide) (by decide) (by decide) (by decide) (by decide)

theorem zjs_signal_callback_frame (w : World) (id : Int) (args : List JVal) :
    (zjs_signal_callback w id args).1.trace = w.trace ++ [RegCall.signal_callback id args] ∧
    (zjs_signal_callback w id args).1.event = w.event ∧
    (zjs_signal_callback w id args).1.cb.invoked = w.cb.invoked ∧
    (zjs_signal_callback w id args).1.cb.slots = w.cb.slots := by
  unfold zjs_signal_callback zjs_malloc
  dsimp only
  split
  · exact ⟨rfl, rfl, rfl, rfl⟩
  · split
    · split
      · exact ⟨rfl, rfl, rfl, rfl⟩
      · exact ⟨rfl, rfl, rfl, rfl⟩
    · split
      · exact ⟨rfl, rfl, rfl, rfl⟩
      · exact ⟨rfl, rfl, rfl, rfl⟩

theorem zjs_trigger_event_cases (w : World) (event : String) (argv : List JVal)
    (post h : Option Nat) :
    ((zjs_trigger_event w event argv post h).2 = false ∧
      (zjs_trigger_event w event argv post h).1.trace = w.trace ∧
      (zjs_trigger_event w event argv post h).1.cb = w.cb ∧
      (zjs_trigger_event w event argv post h).1.event = w.event) ∨
    (∃ o, get_event_obj w.event event = some o ∧ get_callback_id o ≠ -1 ∧
      (zjs_trigger_event w event argv post h).2 = true ∧
      (zjs_trigger_event w event argv post h).1.trace = w.trace ++
        [RegCall.edit_callback_handle (get_callback_id o) { handle := h, post := post },
         RegCall.signal_callback (get_callback_id o) argv] ∧
      (zjs_trigger_event w event argv post h).1.cb.invoked = w.cb.invoked ∧
      (zjs_trigger_event w event argv post h).1.event = w.event) := by
  unfold zjs_trigger_event
  dsimp only
  split
  · exact Or.inl ⟨rfl, zjs_malloc_trace w, zjs_malloc_cb w, zjs_malloc_event w⟩
  · split
    · exact Or.inl ⟨rfl, zjs_malloc_trace w, zjs_malloc_cb w, zjs_malloc_event w⟩
    · rename_i o ho
      split
      · exact Or.inl ⟨rfl, zjs_malloc_trace w, zjs_malloc_cb w, zjs_malloc_event w⟩
      · rename_i hid
        refine Or.inr ⟨o, ?_, hid, rfl, ?_, ?_, ?_⟩
        · rw [← zjs_malloc_event w]; exact ho
        · rw [(zjs_signal_callback_frame _ _ _).1]
          simp [zjs_edit_callback_handle, zjs_malloc_trace]
        · rw [(zjs_signal_callback_frame _ _ _).2.2.1]
          simp [zjs_edit_callback_handle, zjs_malloc_cb]
        · rw [(zjs_signal_callback_frame _ _ _).2.1]
          simp [zjs_edit_callback_handle, zjs_malloc_event]

theorem validate_string_head (argv : List JVal)
    (h : validate_args [ArgType.Z_STRING] argv = true) :
    ∃ s rest, argv = JVal.string s :: rest := by
  cases argv with
  | nil => simp [validate_args] at h
  | cons v rest =>
    cases v <;> simp [validate_args, JVal.has_type] at h
    exact ⟨_, _, rfl⟩

theorem emit_event_of_valid (w : World) (this : JVal) (e : String) (rest : List JVal)
    (hv : valid_name e) :
    emit_event w this (JVal.string e :: rest)
      = ((zjs_trigger_event w e rest none none).1,
         JVal.boolean (zjs_trigger_event w e rest none none).2) := by
  obtain ⟨h0, h1⟩ := hv
  have h2 : ¬ e.utf8ByteSize = 0 := by omega
  simp [emit_event, validate_args, JVal.has_type, zjs_copy_jstring, ZJS_MAX_EVENT_NAME_SIZE] at *
  simp [h1, h2]

/-- C6: `emit` never invokes a listener synchronously.  For every state and argument list,
`emit_event` either makes no registry call at all, or its registry calls are
exactly `editNativeHandle` followed by `signal`, both on the slot id stored in
the EventRecord of the emitted name, with the pass-through arguments; no
`callNow` occurs among the calls it makes, and the registry's list of performed
script invocations is unchanged.  The same holds for `zjs_trigger_event` with
any post hook and handle. -/
theorem C6_emit_is_deferred (w : World) (this : JVal) (argv : List JVal) :
    ((emit_event w this argv).1.trace = w.trace ∨
      ∃ e o, argv.head? = some (JVal.string e) ∧ get_event_obj w.event e = some o ∧
        (emit_event w this argv).1.trace = w.trace ++
          [RegCall.edit_callback_handle (get_callback_id o) { handle := none, post := none },
           RegCall.signal_callback (get_callback_id o) argv.tail]) ∧
    (∀ id args, RegCall.call_callback id args ∉
      (emit_event w this argv).1.trace.drop w.trace.length) ∧
    (emit_event w this argv).1.cb.invoked = w.cb.invoked ∧
    (∀ (event : String) (post h : Option Nat),
      ((zjs_trigger_event w event argv post h).1.trace = w.trace ∨
        ∃ o, get_event_obj w.event event = some o ∧
          (zjs_trigger_event w event argv post h).1.trace = w.trace ++
            [RegCall.edit_callback_handle (get_callback_id o) { handle := h, post := post },
             RegCall.signal_callback (get_callback_id o) argv]) ∧
      (∀ id args, RegCall.call_callback id args ∉
        (zjs_trigger_event w event argv post h).1.trace.drop w.trace.length) ∧
      (zjs_trigger_event w event argv post h).1.cb.invoked = w.cb.invoked) := by
  have trig : ∀ (event : String) (args : List JVal) (post h : Option Nat),
      ((zjs_trigger_event w event args post h).1.trace = w.trace ∨
        ∃ o, get_event_obj w.event event = some o ∧
          (zjs_trigger_event w event args post h).1.trace = w.trace ++
            [RegCall.edit_callback_handle (get_callback_id o) { handle := h, post := post },
             RegCall.signal_callback (get_callback_id o) args]) ∧
      (∀ id a, RegCall.call_callback id a ∉
        (zjs_trigger_event w event args post h).1.trace.drop w.trace.length) ∧
      (zjs_trigger_event w event args post h).1.cb.invoked = w.cb.invoked := by
    intro event args post h
    rcases zjs_trigger_event_cases w event args post h with ⟨_, ht, hcb, _⟩ | ⟨o, ho, _, _, ht, hinv, _⟩
    · exact ⟨Or.inl ht, by simp [ht], by rw [hcb]⟩
    · exact ⟨Or.inr ⟨o, ho, ht⟩, by simp [ht], hinv⟩
  suffices hemit : ((emit_event w this argv).1.trace = w.trace ∨
      ∃ e o, argv.head? = some (JVal.string e) ∧ get_event_obj w.event e = some o ∧
        (emit_event w this argv).1.trace = w.trace ++
          [RegCall.edit_callback_handle (get_callback_id o) { handle := none, post := none },
           RegCall.signal_callback (get_callback_id o) argv.tail]) ∧
    (∀ id args, RegCall.call_callback id args ∉
      (emit_event w this argv).1.trace.drop w.trace.length) ∧
    (emit_event w this argv).1.cb.invoked = w.cb.invoked from
    ⟨hemit.1, hemit.2.1, hemit.2.2, fun event post h => trig event argv post h⟩
  by_cases hval : validate_args [ArgType.Z_STRING] argv = true
  · obtain ⟨s, rest, rfl⟩ := validate_string_head argv hval
    by_cases hsz : ZJS_MAX_EVENT_NAME_SIZE > s.utf8ByteSize ∧ s.utf8ByteSize ≠ 0
    · have hv : valid_name s := ⟨by omega, hsz.1⟩
      rw [emit_event_of_valid w this s rest hv]
      obtain ⟨h1, h2, h3⟩ := trig s rest none none
      refine ⟨?_, h2, h3⟩
      rcases h1 with h1 | ⟨o, ho, h1⟩
      · exact Or.inl h1
      · exact Or.inr ⟨s, o, rfl, ho, h1⟩
    · have hr : (emit_event w this (JVal.string s :: rest)).1 = w := by
        unfold emit_event zjs_copy_jstring
        simp only [hval, List.getD_cons_zero]
        by_cases h1 : ZJS_MAX_EVENT_NAME_SIZE > s.utf8ByteSize
        · have h2 : s.utf8ByteSize = 0 := by
            by_contra h; exact hsz ⟨h1, h⟩
          simp [h2, ZJS_MAX_EVENT_NAME_SIZE]
        · simp [h1]
      rw [hr]
      exact ⟨Or.inl rfl, by simp, rfl⟩
  · have hr : (emit_event w this argv).1 = w := by
      unfold emit_event
      simp [hval]
    rw [hr]
    exact ⟨Or.inl rfl, by simp, rfl⟩

/-- C7: for an event name without an EventRecord, emitting returns false, makes no registry
call (in particular no signal and no call), and leaves the emitter record and the
registry as they were.  `zjs_trigger_event` does so for every name; the script
function `emit` does so for every name of acceptable length and returns the
boolean `false`, not an error value. -/
theorem C7_emit_unknown_event (w : World) (this : JVal) (e : String) (args : List JVal)
    (post h : Option Nat) (hnone : get_event_obj w.event e = none) :
    (zjs_trigger_event w e args post h).2 = false ∧
    (zjs_trigger_event w e args post h).1.trace = w.trace ∧
    (zjs_trigger_event w e args post h).1.cb = w.cb ∧
    (zjs_trigger_event w e args post h).1.event = w.event ∧
    (valid_name e →
      (emit_event w this (JVal.string e :: args)).2 = JVal.boolean false ∧
      (emit_event w this (JVal.string e :: args)).1.trace = w.trace ∧
      (emit_event w this (JVal.string e :: args)).1.cb = w.cb ∧
      (emit_event w this (JVal.string e :: args)).1.event = w.event) := by
  have key : ∀ (a : List JVal) (p q : Option Nat),
      (zjs_trigger_event w e a p q).2 = false ∧
      (zjs_trigger_event w e a p q).1.trace = w.trace ∧
      (zjs_trigger_event w e a p q).1.cb = w.cb ∧
      (zjs_trigger_event w e a p q).1.event = w.event := by
    intro a p q
    rcases zjs_trigger_event_cases w e a p q with hc | ⟨o, ho, _⟩
    · exact hc
    · rw [hnone] at ho; exact absurd ho (by simp)
  obtain ⟨k1, k2, k3, k4⟩ := key args post h
  refine ⟨k1, k2, k3, k4, fun hv => ?_⟩
  rw [emit_event_of_valid w this e args hv]
  obtain ⟨e1, e2, e3, e4⟩ := key args none none
  exact ⟨by rw [e1], e2, e3, e4⟩

theorem C7_emit_unknown_event_witness :
    (zjs_trigger_event sample_one "b" [JVal.number 42] none none).2 = false ∧
    (zjs_trigger_event sample_one "b" [JVal.number 42] none none).1.trace = sample_one.trace ∧
    (zjs_trigger_event sample_one "b" [JVal.number 42] none none).1.cb = sample_one.cb ∧
    (zjs_trigger_event sample_one "b" [JVal.number 42] none none).1.event = sample_one.event ∧
    (valid_name "b" →
      (emit_event sample_one sample_emitter (JVal.string "b" :: [JVal.number 42])).2
        = JVal.boolean false ∧
      (emit_event sample_one sample_emitter (JVal.string "b" :: [JVal.number 42])).1.trace
        = sample_one.trace ∧
      (emit_event sample_one sample_emitter (JVal.string "b" :: [JVal.number 42])).1.cb
        = sample_one.cb ∧
      (emit_event sample_one sample_emitter (JVal.string "b" :: [JVal.number 42])).1.event
        = sample_one.event) :=
  C7_emit_unknown_event sample_one sample_emitter "b" [JVal.number 42] none none (by decide)

/-- C8 (code defect, evaluated): on a default emitter, after `on("a", f1)` and
`removeListener("a", f1)` no listener is attached to `"a"` (`listenerCount("a")`
is 0 and the registry holds no slot), yet `emit("a")` returns `true`; nothing is
queued by it. -/
theorem C8_emit_true_without_listeners :
    (get_listener_count sample_removed sample_emitter [JVal.string "a"]).2 = JVal.number 0 ∧
    sample_removed.cb.slots = [] ∧
    (emit_event sample_removed sample_emitter [JVal.string "a"]).2 = JVal.boolean true ∧
    (emit_event sample_removed sample_emitter [JVal.string "a"]).1.cb.pending = [] := by
  decide

theorem map_delete_eq_filter (m : List (String × EventObj)) (e : String) :
    map_delete m e = m.filter (fun p => decide (p.1 ≠ e)) := by
  induction m with
  | nil => rfl
  | cons p rest ih =>
    obtain ⟨k, v⟩ := p
    unfold map_delete
    by_cases hk : k = e
    · simp [hk, ih]
    · simp [hk, ih]

theorem map_get_delete_self (m : List (String × EventObj)) (e : String) :
    map_get (map_delete m e) e = none := by
  induction m with
  | nil => rfl
  | cons p rest ih =>
    obtain ⟨k, v⟩ := p
    unfold map_delete
    by_cases hk : k = e
    · simp [hk, ih]
    · simp [hk, ih, map_get]

theorem map_get_delete_other (m : List (String × EventObj)) (e x : String) (hx : x ≠ e) :
    map_get (map_delete m e) x = map_get m x := by
  induction m with
  | nil => rfl
  | cons p rest ih =>
    obtain ⟨k, v⟩ := p
    unfold map_delete
    by_cases hk : k = e
    · have hex : ¬ e = x := fun h => hx h.symm
      simp [hk, ih, map_get, hex]
    · simp [hk, ih, map_get]

theorem find_slot_filter_ne (slots : List CallbackSlot) (id : Int) :
    find_slot (slots.filter (fun t => decide (t.id ≠ id))) id = none := by
  unfold find_slot
  simp [List.find?_eq_none]

theorem remove_all_listeners_of_valid (w : World) (em : EventT) (this : JVal) (e : String)
    (o : EventObj) (rest : List JVal) (hv : valid_name e) (hem : w.event = some em)
    (hrec : map_get em.map e = some o) (hid : get_callback_id o ≠ -1) :
    remove_all_listeners w this (JVal.string e :: rest)
      = ({ zjs_remove_callback w (get_callback_id o) with
            event := some { em with map := map_delete em.map e, numEvents := some 0 } },
         this) := by
  obtain ⟨h0, h1⟩ := hv
  have h2 : ¬ e.utf8ByteSize = 0 := by omega
  simp only [ZJS_MAX_EVENT_NAME_SIZE] at h1
  simp [remove_all_listeners, validate_args, JVal.has_type, zjs_copy_jstring,
    ZJS_MAX_EVENT_NAME_SIZE, h1, h2, hem, hrec, hid]

/-- C9: for an event name `e` (of acceptable length) whose EventRecord stores a valid slot
id `c`, `removeAllListeners(e)` makes exactly one registry call, `removeSlot(c)`,
after which slot `c` is gone; it deletes the record of `e` from the event map
and leaves every other record, and the order, unchanged; it sets `numEvents` to
0 and keeps `maxListeners`; and `eventNames()` afterwards lists exactly the
other names, so `e` is no longer in it while every other registered name is. -/
theorem C9_remove_all_listeners (w : World) (em : EventT) (this : JVal) (e : String)
    (o : EventObj) (rest : List JVal) (hv : valid_name e) (hem : w.event = some em)
    (hrec : map_get em.map e = some o) (hid : get_callback_id o ≠ -1) :
    (remove_all_listeners w this (JVal.string e :: rest)).1.trace
      = w.trace ++ [RegCall.remove_callback (get_callback_id o)] ∧
    find_slot (remove_all_listeners w this (JVal.string e :: rest)).1.cb.slots
      (get_callback_id o) = none ∧
    (remove_all_listeners w this (JVal.string e :: rest)).1.event
      = some { numEvents := some 0, maxListeners := em.maxListeners,
               map := em.map.filter (fun p => decide (p.1 ≠ e)) } ∧
    get_event_obj (remove_all_listeners w this (JVal.string e :: rest)).1.event e = none ∧
    (∀ x, x ≠ e →
      get_event_obj (remove_all_listeners w this (JVal.string e :: rest)).1.event x
        = map_get em.map x) ∧
    get_num_events (remove_all_listeners w this (JVal.string e :: rest)).1.event = 0 ∧
    (get_event_names (remove_all_listeners w this (JVal.string e :: rest)).1 this []).2
      = JRet.array (((map_names em.map).filter (fun x => decide (x ≠ e))).map JVal.string) := by
  rw [remove_all_listeners_of_valid w em this e o rest hv hem hrec hid]
  refine ⟨rfl, ?_, ?_, ?_, ?_, ?_, ?_⟩
  · exact find_slot_filter_ne _ _
  · simp [map_delete_eq_filter]
  · exact map_get_delete_self _ _
  · intro x hx
    exact map_get_delete_other _ _ _ hx
  · simp [get_num_events, to_uint32]
  · rw [get_event_names_eq _ _ this [] rfl]
    simp [get_num_events, to_uint32, map_delete_eq_filter, map_names, List.filter_map]
    rfl

theorem C9_remove_all_listeners_witness :
    (remove_all_listeners sample_two sample_emitter (JVal.string "a" :: [])).1.trace
      = sample_two.trace ++ [RegCall.remove_callback (get_callback_id { callback_id := some 0 })] ∧
    find_slot (remove_all_listeners sample_two sample_emitter (JVal.string "a" :: [])).1.cb.slots
      (get_callback_id { callback_id := some 0 }) = none ∧
    (remove_all_listeners sample_two sample_emitter (JVal.string "a" :: [])).1.event
      = some { numEvents := some 0, maxListeners := sample_two_record.maxListeners,
               map := sample_two_record.map.filter (fun p => decide (p.1 ≠ "a")) } ∧
    get_event_obj (remove_all_listeners sample_two sample_emitter
      (JVal.string "a" :: [])).1.event "a" = none ∧
    (∀ x, x ≠ "a" →
      get_event_obj (remove_all_listeners sample_two sample_emitter
        (JVal.string "a" :: [])).1.event x = map_get sample_two_record.map x) ∧
    get_num_events (remove_all_listeners sample_two sample_emitter
      (JVal.string "a" :: [])).1.event = 0 ∧
    (get_event_names (remove_all_listeners sample_two sample_emitter
      (JVal.string "a" :: [])).1 sample_emitter []).2
      = JRet.array (((map_names sample_two_record.map).filter
          (fun x => decide (x ≠ "a"))).map JVal.string) :=
  C9_remove_all_listeners sample_two sample_two_record sample_emitter "a"
    { callback_id := some 0 } [] (by decide) (by decide) (by decide) (by decide)

/-- C10: `removeListener(name, fn)`, for any arguments, returns the emitter record as it
was: the same EventRecords with the same stored slot ids in the same order, the
same `numEvents` and the same `maxListeners`, also when the registry destroyed the
slot because its last listener was removed. -/
theorem C10_remove_listener_keeps_record (w : World) (this : JVal) (argv : List JVal) :
    (remove_listener w this argv).1.event = w.event ∧
    get_num_events (remove_listener w this argv).1.event = get_num_events w.event ∧
    get_max_event_listeners (remove_listener w this argv).1.event
      = get_max_event_listeners w.event ∧
    (∀ x, get_event_obj (remove_listener w this argv).1.event x = get_event_obj w.event x) := by
  have h := remove_listener_event w this argv
  refine ⟨h, by rw [h], by rw [h], fun x => by rw [h]⟩

/-- C11 (code defect, evaluated): on a default emitter, after `on("a", f1)` and
`on("a", f2)` the event map holds the single name `a`, but `eventNames()` returns
an array of length 2 whose second element is a hole: the array is created with
`numEvents` elements, and `numEvents` is 2 here. -/
theorem C11_event_names_longer_than_map :
    map_names ((sample_same_name.event.getD
      { numEvents := none, maxListeners := none, map := [] }).map) = ["a"] ∧
    get_num_events sample_same_name.event = 2 ∧
    (get_event_names sample_same_name sample_emitter []).2
      = JRet.array [JVal.string "a", JVal.undefined] := by
  decide

/-- C12 (as stated, refuted): `on("a", f1)` on an object without the hidden emitter record
leaves the object without it and makes no registry call. -/
theorem C12_no_state_created :
    World.init.event = none ∧
    (add_listener World.init sample_emitter [JVal.string "a", JVal.function 1]).1 = World.init ∧
    (add_listener World.init sample_emitter
      [JVal.string "a", JVal.function 1]).1.event = none ∧
    (add_listener World.init sample_emitter
      [JVal.string "a", JVal.function 1]).1.trace = [] := by
  decide

/-- C12 (amended): `on`/`addListener` applied to an object that carries no emitter record
does nothing: the state is returned as it was, so no record is created and no
listener is registered.  Once `zjs_make_event` has given the object its record,
the call registers the listener: the registry's `addListener` is called for it
and the event name gets an EventRecord. -/
theorem C12_add_listener_without_state (w : World) (obj : JVal) (e : String)
    (listener : JVal) (hnone : w.event = none) :
    zjs_add_event_listener w obj e listener = w ∧
    (∀ argv : List JVal, (add_listener w obj argv).1 = w) ∧
    (zjs_add_event_listener (zjs_make_event w) obj e listener).trace
      = w.trace ++ [RegCall.add_callback_list listener obj none PostFn.post_event (-1)] ∧
    get_event_obj (zjs_add_event_listener (zjs_make_event w) obj e listener).event e ≠ none := by
  have h1 : zjs_add_event_listener w obj e listener = w := by
    unfold zjs_add_event_listener
    rw [hnone]
  have h2 : ∀ argv : List JVal, (add_listener w obj argv).1 = w := by
    intro argv
    unfold add_listener
    split
    · rfl
    · dsimp only
      split
      · rfl
      · unfold zjs_add_event_listener
        rw [hnone]
  have hlt : get_num_events (zjs_make_event w).event
      < get_max_event_listeners (zjs_make_event w).event := by
    simp [zjs_make_event, get_num_events, get_max_event_listeners, to_uint32,
      DEFAULT_MAX_LISTENERS]
  refine ⟨h1, h2, ?_, ?_⟩
  · rw [zjs_add_event_listener_accepted (zjs_make_event w) _ obj e listener rfl hlt]
    simp [zjs_add_callback_list_trace, map_get, get_callback_id, zjs_make_event]
  · rw [zjs_add_event_listener_accepted (zjs_make_event w) _ obj e listener rfl hlt]
    simp [get_event_obj, map_set, map_get]

theorem C12_add_listener_without_state_witness :
    zjs_add_event_listener World.init sample_emitter "a" (JVal.function 1) = World.init ∧
    (∀ argv : List JVal, (add_listener World.init sample_emitter argv).1 = World.init) ∧
    (zjs_add_event_listener (zjs_make_event World.init) sample_emitter "a" (JVal.function 1)).trace
      = World.init.trace ++ [RegCall.add_callback_list (JVal.function 1) sample_emitter none
          PostFn.post_event (-1)] ∧
    get_event_obj (zjs_add_event_listener (zjs_make_event World.init) sample_emitter "a"
      (JVal.function 1)).event "a" ≠ none :=
  C12_add_listener_without_state World.init sample_emitter "a" (JVal.function 1) (by decide)

/-- C13: for every state and every number `n < 0`, `setMaxListeners(n)` returns an error
value and the state as it was, so `maxListeners`, `numEvents` and the event map
are unchanged. -/
theorem C13_negative_max_rejected (w : World) (this : JVal) (n : Int) (rest : List JVal)
    (hn : n < 0) :
    set_max_listeners w this (JVal.number n :: rest)
      = (w, JVal.error "max listener value must be a positive integer") ∧
    (set_max_listeners w this (JVal.number n :: rest)).1.event = w.event ∧
    get_max_event_listeners (set_max_listeners w this (JVal.number n :: rest)).1.event
      = get_max_event_listeners w.event ∧
    get_num_events (set_max_listeners w this (JVal.number n :: rest)).1.event
      = get_num_events w.event := by
  have h : set_max_listeners w this (JVal.number n :: rest)
      = (w, JVal.error "max listener value must be a positive integer") := by
    simp [set_max_listeners, validate_args, JVal.has_type, hn]
  rw [h]
  exact ⟨rfl, rfl, rfl, rfl⟩

theorem C13_negative_max_rejected_witness :
    set_max_listeners sample_one sample_emitter (JVal.number (-1) :: [])
      = (sample_one, JVal.error "max listener value must be a positive integer") ∧
    (set_max_listeners sample_one sample_emitter (JVal.number (-1) :: [])).1.event
      = sample_one.event ∧
    get_max_event_listeners
      (set_max_listeners sample_one sample_emitter (JVal.number (-1) :: [])).1.event
      = get_max_event_listeners sample_one.event ∧
    get_num_events (set_max_listeners sample_one sample_emitter (JVal.number (-1) :: [])).1.event
      = get_num_events sample_one.event :=
  C13_negative_max_rejected sample_one sample_emitter (-1) [] (by decide)

/-- C14: on an emitter, for every integer `n` with `0 <= n < 2^32`, `setMaxListeners(n)`
returns the emitter, a following `getMaxListeners()` returns `n`, and
`numEvents` and the event map are as before. -/
theorem C14_set_then_get_max (w : World) (em : EventT) (this : JVal) (n : Int)
    (rest argv : List JVal) (hem : w.event = some em) (h0 : 0 ≤ n) (h1 : n < 4294967296) :
    (set_max_listeners w this (JVal.number n :: rest)).2 = this ∧
    (get_max_listeners (set_max_listeners w this (JVal.number n :: rest)).1 this argv).2
      = JVal.number n ∧
    (set_max_listeners w this (JVal.number n :: rest)).1.event
      = some { numEvents := em.numEvents, maxListeners := some n, map := em.map } ∧
    get_num_events (set_max_listeners w this (JVal.number n :: rest)).1.event
      = get_num_events w.event := by
  have hn : ¬ n < 0 := by omega
  have h : set_max_listeners w this (JVal.number n :: rest)
      = ({ w with event := some { em with maxListeners := some n } }, this) := by
    simp [set_max_listeners, validate_args, JVal.has_type, hn, hem]
  rw [h, hem]
  refine ⟨rfl, ?_, rfl, rfl⟩
  simp only [get_max_listeners, get_max_event_listeners, to_uint32]
  congr 1
  omega

theorem C14_set_then_get_max_witness :
    (set_max_listeners sample_one sample_emitter (JVal.number 3 :: [])).2 = sample_emitter ∧
    (get_max_listeners (set_max_listeners sample_one sample_emitter (JVal.number 3 :: [])).1
      sample_emitter []).2 = JVal.number 3 ∧
    (set_max_listeners sample_one sample_emitter (JVal.number 3 :: [])).1.event
      = some { numEvents := sample_one_record.numEvents, maxListeners := some 3,
               map := sample_one_record.map } ∧
    get_num_events (set_max_listeners sample_one sample_emitter (JVal.number 3 :: [])).1.event
      = get_num_events sample_one.event :=
  C14_set_then_get_max sample_one sample_one_record sample_emitter 3 [] []
    (by decide) (by decide) (by decide)

/-- C15: an emitter made by `zjs_make_event`, directly or through the script constructor,
has `maxListeners = 10` (`getMaxListeners()` returns 10), `numEvents = 0` and an
empty event map (`eventNames()` returns the empty array); the prototype built by
`zjs_event_init` carries `defaultMaxListeners = 10`. -/
theorem C15_fresh_emitter (w : World) (this new_emitter : JVal) (argv : List JVal) :
    (zjs_make_event w).event = some { numEvents := some 0, maxListeners := some 10, map := [] } ∧
    (event_constructor w this argv new_emitter).1 = zjs_make_event w ∧
    (event_constructor w this argv new_emitter).2 = new_emitter ∧
    (get_max_listeners (zjs_make_event w) this argv).2 = JVal.number 10 ∧
    get_num_events (zjs_make_event w).event = 0 ∧
    (get_event_names (zjs_make_event w) this argv).2 = JRet.array [] ∧
    proto_get zjs_event_init "defaultMaxListeners" = some (ProtoProp.number 10) ∧
    (zjs_make_event w).cb = w.cb ∧ (zjs_make_event w).trace = w.trace := by
  refine ⟨rfl, rfl, rfl, ?_, ?_, ?_, by decide, rfl, rfl⟩
  · simp [get_max_listeners, get_max_event_listeners, zjs_make_event, to_uint32,
      DEFAULT_MAX_LISTENERS]
  · simp [get_num_events, zjs_make_event, to_uint32]
  · simp [get_event_names, get_num_events, zjs_make_event, to_uint32, jerry_create_array,
      jerry_foreach_object_property]

theorem remove_listener_of_valid (w : World) (this : JVal) (e : String) (f : Nat)
    (rest : List JVal) (hv : valid_name e) :
    remove_listener w this (JVal.string e :: JVal.function f :: rest)
      = match get_event_obj w.event e with
        | none => (w, JVal.undefined)
        | some event_obj =>
            if get_callback_id event_obj ≠ -1 then
              (zjs_remove_callback_list_func w (get_callback_id event_obj) (JVal.function f), this)
            else (w, this) := by
  obtain ⟨h0, h1⟩ := hv
  have h2 : ¬ e.utf8ByteSize = 0 := by omega
  simp only [ZJS_MAX_EVENT_NAME_SIZE] at h1
  simp [remove_listener, validate_args, JVal.has_type, zjs_copy_jstring,
    ZJS_MAX_EVENT_NAME_SIZE, h1, h2]

theorem remove_all_listeners_of_valid_name (w : World) (this : JVal) (e : String)
    (rest : List JVal) (hv : valid_name e) :
    remove_all_listeners w this (JVal.string e :: rest)
      = match w.event with
        | none => (w, JVal.undefined)
        | some em =>
            match map_get em.map e with
            | none => (w, JVal.undefined)
            | some event_obj =>
                if get_callback_id event_obj ≠ -1 then
                  ({ zjs_remove_callback w (get_callback_id event_obj) with
                      event := some { em with map := map_delete em.map e, numEvents := some 0 } },
                   this)
                else
                  ({ w with event := some { em with numEvents := some 0 } }, this) := by
  obtain ⟨h0, h1⟩ := hv
  have h2 : ¬ e.utf8ByteSize = 0 := by omega
  simp only [ZJS_MAX_EVENT_NAME_SIZE] at h1
  simp [remove_all_listeners, validate_args, JVal.has_type, zjs_copy_jstring,
    ZJS_MAX_EVENT_NAME_SIZE, h1, h2]

/-- C16 (as stated, refuted): on a freshly made emitter, where `"a"` has no EventRecord,
`removeListener("a", f1)` and `removeAllListeners("a")` return `undefined`, not
the emitter. -/
theorem C16_undefined_without_record :
    get_event_obj (zjs_make_event World.init).event "a" = none ∧
    (remove_listener (zjs_make_event World.init) sample_emitter
      [JVal.string "a", JVal.function 1]).2 = JVal.undefined ∧
    (remove_all_listeners (zjs_make_event World.init) sample_emitter
      [JVal.string "a"]).2 = JVal.undefined ∧
    JVal.undefined ≠ sample_emitter := by
  decide

/-- C16 (amended): for a well-typed call with an event name of acceptable length,
`removeListener(eventName, fn)` and `removeAllListeners(eventName)` return the
emitter itself when `eventName` has an EventRecord; when it has none they return
`undefined` and leave the state as it was. -/
theorem C16_return_value_of_remove (w : World) (this : JVal) (e : String) (f : Nat)
    (rest : List JVal) (hv : valid_name e) :
    (get_event_obj w.event e ≠ none →
      (remove_listener w this (JVal.string e :: JVal.function f :: rest)).2 = this ∧
      (remove_all_listeners w this (JVal.string e :: rest)).2 = this) ∧
    (get_event_obj w.event e = none →
      remove_listener w this (JVal.string e :: JVal.function f :: rest) = (w, JVal.undefined) ∧
      remove_all_listeners w this (JVal.string e :: rest) = (w, JVal.undefined)) := by
  rw [remove_listener_of_valid w this e f rest hv,
    remove_all_listeners_of_valid_name w this e rest hv]
  cases hev : w.event with
  | none => simp [get_event_obj]
  | some em =>
    cases hrec : map_get em.map e with
    | none => simp [get_event_obj, hrec]
    | some o =>
      simp only [get_event_obj, hrec]
      refine ⟨fun _ => ⟨?_, ?_⟩, fun h => absurd h (by simp)⟩
      · split <;> rfl
      · split <;> rfl

theorem C16_return_value_of_remove_witness :
    (get_event_obj sample_one.event "a" ≠ none →
      (remove_listener sample_one sample_emitter
        (JVal.string "a" :: JVal.function 1 :: [])).2 = sample_emitter ∧
      (remove_all_listeners sample_one sample_emitter (JVal.string "a" :: [])).2
        = sample_emitter) ∧
    (get_event_obj sample_one.event "a" = none →
      remove_listener sample_one sample_emitter (JVal.string "a" :: JVal.function 1 :: [])
        = (sample_one, JVal.undefined) ∧
      remove_all_listeners sample_one sample_emitter (JVal.string "a" :: [])
        = (sample_one, JVal.undefined)) :=
  C16_return_value_of_remove sample_one sample_emitter "a" 1 [] (by decide)

theorem zjs_call_callback_trace (w : World) (id : Int) (args : List JVal) :
    (zjs_call_callback w id args).1.trace = w.trace ++ [RegCall.call_callback id args] := by
  unfold zjs_call_callback
  dsimp only
  split <;> rfl

/-- C17: `zjs_trigger_event_now`, for every state, event name, argument list, post hook and
handle.  When the trigger allocation succeeds and the name has an EventRecord
with a slot id `c` other than -1, its registry calls are exactly
`editNativeHandle(c, trigger)` followed by one `callNow(c, args)` with the
caller's arguments (so no `signal`), and it returns true.  When the name has no
EventRecord, or its stored id is -1, it returns false and makes no registry
call, leaving the registry as it was. -/
theorem C17_trigger_event_now (w : World) (event : String) (argv : List JVal)
    (post h : Option Nat) :
    (w.heap.head? ≠ some false →
      ∀ o, get_event_obj w.event event = some o → get_callback_id o ≠ -1 →
        (zjs_trigger_event_now w event argv post h).2 = true ∧
        (zjs_trigger_event_now w event argv post h).1.trace = w.trace ++
          [RegCall.edit_callback_handle (get_callback_id o) { handle := h, post := post },
           RegCall.call_callback (get_callback_id o) argv]) ∧
    ((get_event_obj w.event event = none ∨
        ∃ o, get_event_obj w.event event = some o ∧ get_callback_id o = -1) →
      (zjs_trigger_event_now w event argv post h).2 = false ∧
      (zjs_trigger_event_now w event argv post h).1.trace = w.trace ∧
      (zjs_trigger_event_now w event argv post h).1.cb = w.cb ∧
      (zjs_trigger_event_now w event argv post h).1.event = w.event) := by
  have hev := zjs_malloc_event w
  constructor
  · intro hheap o ho hid
    have hm : (zjs_malloc w).2 = true := by
      unfold zjs_malloc
      cases hh : w.heap with
      | nil => rfl
      | cons b rest =>
        cases b with
        | true => rfl
        | false => simp [hh] at hheap
    unfold zjs_trigger_event_now
    simp only [hm, hev, ho, hid, Bool.not_true, if_false]
    refine ⟨by simp, ?_⟩
    simp [zjs_call_callback_trace, zjs_edit_callback_handle, zjs_malloc_trace]
  · intro hno
    unfold zjs_trigger_event_now
    dsimp only
    split
    · exact ⟨rfl, zjs_malloc_trace w, zjs_malloc_cb w, zjs_malloc_event w⟩
    · rw [hev]
      rcases hno with hno | ⟨o, ho, hid⟩
      · simp only [hno]
        exact ⟨trivial, zjs_malloc_trace w, zjs_malloc_cb w, zjs_malloc_event w⟩
      · simp only [ho, hid, if_true]
        exact ⟨trivial, zjs_malloc_trace w, zjs_malloc_cb w, zjs_malloc_event w⟩

theorem C17_trigger_event_now_witness :
    (zjs_trigger_event_now sample_one "a" [JVal.number 42] none none).2 = true ∧
    (zjs_trigger_event_now sample_one "a" [JVal.number 42] none none).1.trace
      = sample_one.trace ++
        [RegCall.edit_callback_handle (get_callback_id { callback_id := some 0 })
           { handle := none, post := none },
         RegCall.call_callback (get_callback_id { callback_id := some 0 }) [JVal.number 42]] :=
  (C17_trigger_event_now sample_one "a" [JVal.number 42] none none).1 (by decide)
    { callback_id := some 0 } (by decide) (by decide)

theorem get_listeners_of_record (w : World) (this : JVal) (e : String) (o : EventObj)
    (rest : List JVal) (hv : valid_name e) (hrec : get_event_obj w.event e = some o)
    (hid : get_callback_id o ≠ -1) :
    (get_listeners w this (JVal.string e :: rest)).2
      = JRet.array (zjs_get_callback_func_list w (get_callback_id o)).2 := by
  obtain ⟨h0, h1⟩ := hv
  have h2 : ¬ e.utf8ByteSize = 0 := by omega
  simp only [ZJS_MAX_EVENT_NAME_SIZE] at h1
  simp [get_listeners, validate_args, JVal.has_type, zjs_copy_jstring,
    ZJS_MAX_EVENT_NAME_SIZE, h1, h2, hrec, hid]

theorem get_listener_count_of_record (w : World) (this : JVal) (e : String) (o : EventObj)
    (rest : List JVal) (hv : valid_name e) (hrec : get_event_obj w.event e = some o)
    (hid : get_callback_id o ≠ -1) :
    (get_listener_count w this (JVal.string e :: rest)).2
      = JVal.number ((zjs_get_num_callbacks w (get_callback_id o)).2 : Int) := by
  obtain ⟨h0, h1⟩ := hv
  have h2 : ¬ e.utf8ByteSize = 0 := by omega
  simp only [ZJS_MAX_EVENT_NAME_SIZE] at h1
  simp [get_listener_count, validate_args, JVal.has_type, zjs_copy_jstring,
    ZJS_MAX_EVENT_NAME_SIZE, h1, h2, hrec, hid]

theorem remove_first_func_middle (l1 l2 l3 : Listener) :
    (remove_first_func [l1, l2, l3] l2.function).map Listener.function
      = [l1.function, l3.function] ∧ remove_first_func [l1, l2, l3] l2.function ≠ [] := by
  unfold remove_first_func
  by_cases h : l1.function = l2.function
  · simp [h]
  · simp [h, remove_first_func]

/-- C19: on an emitter whose event `e` (a name of acceptable length) has a record with slot
id `c` and whose slot `c` holds the listeners `[f1, f2, f3]` in this order,
`removeListener(e, f2)` makes exactly one registry call,
`removeListenerFunc(c, f2)`, and leaves the emitter record untouched; afterwards
`listeners(e)` returns `[f1, f3]` and `listenerCount(e)` returns 2. -/
theorem C19_remove_middle_listener (w : World) (this : JVal) (e : String) (o : EventObj)
    (s : CallbackSlot) (f1 f3 : JVal) (f2 : Nat) (hv : valid_name e)
    (hrec : get_event_obj w.event e = some o) (hid : get_callback_id o ≠ -1)
    (hslot : find_slot w.cb.slots (get_callback_id o) = some s)
    (hls : s.listeners.map Listener.function = [f1, JVal.function f2, f3]) :
    (remove_listener w this [JVal.string e, JVal.function f2]).1.trace
      = w.trace ++ [RegCall.remove_callback_list_func (get_callback_id o) (JVal.function f2)] ∧
    (remove_listener w this [JVal.string e, JVal.function f2]).1.event = w.event ∧
    (remove_listener w this [JVal.string e, JVal.function f2]).2 = this ∧
    (get_listeners (remove_listener w this [JVal.string e, JVal.function f2]).1 this
      [JVal.string e]).2 = JRet.array [f1, f3] ∧
    (get_listener_count (remove_listener w this [JVal.string e, JVal.function f2]).1 this
      [JVal.string e]).2 = JVal.number 2 := by
  obtain ⟨l1, l2, l3, hl, h1, h2, h3⟩ : ∃ l1 l2 l3, s.listeners = [l1, l2, l3] ∧
      l1.function = f1 ∧ l2.function = JVal.function f2 ∧ l3.function = f3 := by
    cases hs : s.listeners with
    | nil => simp [hs] at hls
    | cons a t =>
      cases t with
      | nil => simp [hs] at hls
      | cons b t =>
        cases t with
        | nil => simp [hs] at hls
        | cons c t =>
          cases t with
          | nil =>
            simp only [hs, List.map_cons, List.map_nil, List.cons.injEq, and_true] at hls
            exact ⟨a, b, c, rfl, hls.1, hls.2.1, hls.2.2⟩
          | cons d t => simp [hs] at hls
  obtain ⟨hmid, hne⟩ := remove_first_func_middle l1 l2 l3
  rw [h2] at hmid hne
  have hw : remove_listener w this [JVal.string e, JVal.function f2]
      = (zjs_remove_callback_list_func w (get_callback_id o) (JVal.function f2), this) := by
    rw [remove_listener_of_valid w this e f2 [] hv, hrec]
    simp only [hid, ne_eq, not_false_eq_true, if_true]
  have htrace : (zjs_remove_callback_list_func w (get_callback_id o) (JVal.function f2)).trace
      = w.trace ++
        [RegCall.remove_callback_list_func (get_callback_id o) (JVal.function f2)] := by
    unfold zjs_remove_callback_list_func
    simp only [hslot, hl, hne, if_false]
  have hslots : (zjs_remove_callback_list_func w (get_callback_id o) (JVal.function f2)).cb.slots
      = update_slot w.cb.slots (get_callback_id o)
          (fun t => { t with listeners := remove_first_func [l1, l2, l3] (JVal.function f2) }) := by
    unfold zjs_remove_callback_list_func
    simp only [hslot, hl, hne, if_false]
  have hfind : find_slot (remove_listener w this [JVal.string e, JVal.function f2]).1.cb.slots
      (get_callback_id o)
      = some { s with listeners := remove_first_func [l1, l2, l3] (JVal.function f2) } := by
    have hupd := find_slot_update_slot w.cb.slots (get_callback_id o)
      (fun t => { t with listeners := remove_first_func [l1, l2, l3] (JVal.function f2) })
      (fun _ => rfl)
    rw [hw]
    simp only []
    rw [hslots, hupd, hslot]
    rfl
  have hrec2 : get_event_obj (remove_listener w this [JVal.string e, JVal.function f2]).1.event e
      = some o := by
    rw [remove_listener_event]; exact hrec
  refine ⟨by rw [hw]; exact htrace, remove_listener_event _ _ _, by rw [hw], ?_, ?_⟩
  · rw [get_listeners_of_record _ this e o [] hv hrec2 hid]
    unfold zjs_get_callback_func_list
    simp only [hfind]
    rw [hmid, h1, h3]
  · rw [get_listener_count_of_record _ this e o [] hv hrec2 hid]
    unfold zjs_get_num_callbacks
    simp only [hfind]
    have := congrArg List.length hmid
    simp only [List.length_map, List.length_cons, List.length_nil] at this
    rw [this]
    rfl

theorem C19_remove_middle_listener_witness :
    (remove_listener sample_three sample_emitter [JVal.string "x", JVal.function 2]).1.trace
      = sample_three.trace ++
        [RegCall.remove_callback_list_func (get_callback_id { callback_id := some 0 })
          (JVal.function 2)] ∧
    (remove_listener sample_three sample_emitter [JVal.string "x", JVal.function 2]).1.event
      = sample_three.event ∧
    (remove_listener sample_three sample_emitter [JVal.string "x", JVal.function 2]).2
      = sample_emitter ∧
    (get_listeners (remove_listener sample_three sample_emitter
        [JVal.string "x", JVal.function 2]).1 sample_emitter [JVal.string "x"]).2
      = JRet.array [JVal.function 1, JVal.function 3] ∧
    (get_listener_count (remove_listener sample_three sample_emitter
        [JVal.string "x", JVal.function 2]).1 sample_emitter [JVal.string "x"]).2
      = JVal.number 2 :=
  C19_remove_middle_listener sample_three sample_emitter "x" { callback_id := some 0 }
    sample_three_slot (JVal.function 1) (JVal.function 3) 2
    (by decide) (by decide) (by decide) (by decide) (by decide)

theorem main_loop_log {σ : Type} (env : LoopEnv σ) (n : Nat) (s : LoopState σ) :
    (main_loop env n s).log = s.log ++ ticks_log n := by
  induction n generalizing s with
  | zero => simp [main_loop, ticks_log]
  | succ n ih =>
    unfold main_loop
    rw [ih]
    simp [main_loop_body, ticks_log, tick_steps]

theorem ticks_log_window (n k : Nat) (hk : k < n) :
    ((ticks_log n).drop (4 * k)).take 4 = tick_steps := by
  induction k generalizing n with
  | zero =>
    cases n with
    | zero => omega
    | succ n => simp [ticks_log, tick_steps]
  | succ k ih =>
    cases n with
    | zero => omega
    | succ n =>
      have h4 : 4 * (k + 1) = tick_steps.length + 4 * k := by simp [tick_steps]; omega
      unfold ticks_log
      rw [h4, ← List.drop_drop, List.drop_left]
      exact ih n (by omega)

/-- C18: every iteration of the dispatch loop of `main` performs timer processing, the
drain of signaled callbacks, the polling service routines and the idle sleep,
in this order and with nothing in between: one iteration maps the system state
`st` to `sleep 1 (routines (callbacks (timers st)))` and logs exactly these four
steps, and in the log of the first `n` iterations the steps of iteration `k`
are these four, so the drain of tick `k` follows its timers and precedes its
service routines. -/
theorem C18_tick_order {σ : Type} (env : LoopEnv σ) (st : σ) (log : List LoopStep) (n : Nat) :
    (main_loop_body env { state := st, log := log }).state
      = env.zjs_sleep 1 (env.zjs_service_routines (env.zjs_service_callbacks
          (env.zjs_timers_process_events st))) ∧
    (main_loop_body env { state := st, log := log }).log
      = log ++ [LoopStep.timers_process_events, LoopStep.service_callbacks,
          LoopStep.service_routines, LoopStep.sleep 1] ∧
    (main_loop env n { state := st, log := [] }).log.length = 4 * n ∧
    (∀ k, k < n →
      (main_loop env n { state := st, log := [] }).log[4 * k]?
        = some LoopStep.timers_process_events ∧
      (main_loop env n { state := st, log := [] }).log[4 * k + 1]?
        = some LoopStep.service_callbacks ∧
      (main_loop env n { state := st, log := [] }).log[4 * k + 2]?
        = some LoopStep.service_routines ∧
      (main_loop env n { state := st, log := [] }).log[4 * k + 3]?
        = some (LoopStep.sleep 1)) := by
  refine ⟨rfl, by simp [main_loop_body], ?_, ?_⟩
  · rw [main_loop_log]
    simp only [List.nil_append]
    induction n with
    | zero => rfl
    | succ n ih => simp [ticks_log, tick_steps, ih]; omega
  · intro k hk
    rw [main_loop_log]
    simp only [List.nil_append]
    have hw := ticks_log_window n k hk
    have hget : ∀ j, j < 4 → (ticks_log n)[4 * k + j]? = tick_steps[j]? := by
      intro j hj
      rw [← hw, List.getElem?_take_of_lt hj, List.getElem?_drop]
    exact ⟨by simpa using hget 0 (by omega), hget 1 (by omega), hget 2 (by omega),
      hget 3 (by omega)⟩

theorem shift_or (v x : Nat) (hv : v < 16777216) (hx : x < 256) :
    ((v <<< 8) % 4294967296) ||| x = v * 256 + x := by
  have h1 : v <<< 8 = 2 ^ 8 * v := by rw [Nat.shiftLeft_eq]; ring
  have h2 : 2 ^ 8 * v % 4294967296 = 2 ^ 8 * v := Nat.mod_eq_of_lt (by omega)
  rw [h1, h2, ← Nat.mul_add_lt_is_or (by simpa using hx) v]
  ring

theorem byte_lt (b : zjs_buffer_t) (i : Nat) : b.byte i < 256 := (b.buffer.getD i 0).isLt

theorem to_uint32_of_nat (n : Nat) (h : n < 4294967296) : to_uint32 (n : Int) = n := by
  unfold to_uint32; omega

theorem to_uint32_succ (n : Nat) (h : n + 1 < 4294967296) :
    to_uint32 ((n : Int) + 1) = n + 1 := by
  unfold to_uint32; omega

theorem to_uint32_pred (n : Nat) (h : n + 1 < 4294967296) :
    to_uint32 (((n + 1 : Nat) : Int) + -1) = n := by
  unfold to_uint32; omega

theorem read_bytes_loop_succ (b : zjs_buffer_t) (dir : Int) (n offset value : Nat)
    (accessed : List Nat) :
    read_bytes_loop b dir (n + 1) offset value accessed
      = read_bytes_loop b dir n (to_uint32 ((offset : Int) + dir))
          (((value <<< 8) % 4294967296) ||| b.byte offset) (accessed ++ [offset]) := rfl

theorem read_bytes_loop_zero (b : zjs_buffer_t) (dir : Int) (offset value : Nat)
    (accessed : List Nat) :
    read_bytes_loop b dir 0 offset value accessed = (value, accessed) := rfl

theorem read_bytes_loop_be (b : zjs_buffer_t) (n : Nat) :
    ∀ (o v : Nat) (acc : List Nat), n ≤ 4 → v < 256 ^ (4 - n) → o + n < 4294967296 →
      read_bytes_loop b 1 n o v acc
        = (v * 256 ^ n + ∑ i ∈ Finset.range n, b.byte (o + i) * 256 ^ (n - 1 - i),
           acc ++ List.range' o n) := by
  induction n with
  | zero => intro o v acc _ _ _; simp [read_bytes_loop_zero]
  | succ n ih =>
    intro o v acc hn hv ho
    have hb := byte_lt b o
    have hv2 : v < 16777216 := by
      have : 256 ^ (4 - (n + 1)) ≤ 256 ^ 3 := Nat.pow_le_pow_right (by omega) (by omega)
      omega
    have hv3 : v * 256 + b.byte o < 256 ^ (4 - n) := by
      have h4 : 4 - n = (4 - (n + 1)) + 1 := by omega
      rw [h4, pow_succ]
      have : (v + 1) * 256 ≤ 256 ^ (4 - (n + 1)) * 256 := Nat.mul_le_mul_right _ hv
      omega
    rw [read_bytes_loop_succ, to_uint32_succ o (by omega), shift_or v _ hv2 hb,
      ih (o + 1) _ _ (by omega) hv3 (by omega)]
    congr 1
    · rw [Finset.sum_range_succ']
      have hs : ∀ i, b.byte (o + 1 + i) * 256 ^ (n - 1 - i)
          = b.byte (o + (i + 1)) * 256 ^ (n + 1 - 1 - (i + 1)) := by
        intro i
        have e1 : o + 1 + i = o + (i + 1) := by omega
        have e2 : n - 1 - i = n + 1 - 1 - (i + 1) := by omega
        rw [e1, e2]
      simp only [hs]
      simp only [Nat.add_zero, Nat.add_sub_cancel, Nat.sub_zero]
      ring
    · simp [List.range'_succ]

theorem read_bytes_loop_le (b : zjs_buffer_t) (n : Nat) :
    ∀ (o v : Nat) (acc : List Nat), n ≤ 4 → v < 256 ^ (4 - n) → o + n < 4294967296 →
      read_bytes_loop b (-1) n (to_uint32 ((o : Int) + ((n : Int) - 1))) v acc
        = (v * 256 ^ n + ∑ i ∈ Finset.range n, b.byte (o + i) * 256 ^ i,
           acc ++ (List.range' o n).reverse) := by
  induction n with
  | zero => intro o v acc _ _ _; simp [read_bytes_loop_zero]
  | succ n ih =>
    intro o v acc hn hv ho
    have hb := byte_lt b (o + n)
    have hv2 : v < 16777216 := by
      have : 256 ^ (4 - (n + 1)) ≤ 256 ^ 3 := Nat.pow_le_pow_right (by omega) (by omega)
      omega
    have hv3 : v * 256 + b.byte (o + n) < 256 ^ (4 - n) := by
      have h4 : 4 - n = (4 - (n + 1)) + 1 := by omega
      rw [h4, pow_succ]
      have : (v + 1) * 256 ≤ 256 ^ (4 - (n + 1)) * 256 := Nat.mul_le_mul_right _ hv
      omega
    have hstart : to_uint32 ((o : Int) + (((n + 1 : Nat) : Int) - 1)) = o + n := by
      unfold to_uint32; omega
    have hnext : to_uint32 (((o + n : Nat) : Int) + -1) = to_uint32 ((o : Int) + ((n : Int) - 1)) := by
      unfold to_uint32; push_cast; congr 2; ring
    rw [hstart, read_bytes_loop_succ, hnext, shift_or v _ hv2 hb,
      ih o _ _ (by omega) hv3 (by omega)]
    congr 1
    · rw [Finset.sum_range_succ]
      ring
    · rw [List.range'_concat]
      simp

theorem zjs_buffer_read_bytes_in_bounds (b : zjs_buffer_t) (offset bytes : Nat)
    (big_endian : Bool) (rest : List JVal) (hbytes : bytes ≤ 4)
    (hsize : b.bufsize < 4294967296) (hoff : offset + bytes ≤ b.bufsize) :
    zjs_buffer_read_bytes (some b) (JVal.number (offset : Int) :: rest) bytes big_endian
      = if big_endian then
          { ret := JVal.number ((∑ i ∈ Finset.range bytes,
              b.byte (offset + i) * 256 ^ (bytes - 1 - i) : Nat) : Int),
            buf := some b, accessed := List.range' offset bytes }
        else
          { ret := JVal.number ((∑ i ∈ Finset.range bytes,
              b.byte (offset + i) * 256 ^ i : Nat) : Int),
            buf := some b, accessed := (List.range' offset bytes).reverse } := by
  have ho : to_uint32 (offset : Int) = offset := to_uint32_of_nat offset (by omega)
  have hmod : (offset + bytes) % 4294967296 = offset + bytes := Nat.mod_eq_of_lt (by omega)
  have hng : ¬ (offset + bytes > b.bufsize) := by omega
  have hv : (0 : Nat) < 256 ^ (4 - bytes) := Nat.pow_pos (by omega)
  unfold zjs_buffer_read_bytes
  simp only [validate_arg_specs, List.any_cons, List.any_nil, JVal.has_type, Bool.or_false,
    Bool.and_true, Bool.not_true, Bool.false_eq_true, if_false, ho, hmod, hng]
  cases big_endian with
  | true =>
    simp only [if_true, Bool.not_true, Bool.false_eq_true, if_false]
    rw [read_bytes_loop_be b bytes offset 0 [] hbytes hv (by omega)]
    simp
  | false =>
    simp only [Bool.not_false, if_true, Bool.false_eq_true, if_false]
    rw [read_bytes_loop_le b bytes offset 0 [] hbytes hv (by omega)]
    simp

/-- C20: for `bytes` in {1, 2, 4}, every buffer `b` (of a `uint32` size) and every offset
with `offset + bytes <= bufsize`, `zjs_buffer_read_bytes` returns the unsigned
integer `sum over i < bytes of b[offset+i] * 256^(bytes-1-i)` when `big_endian`
is true and `sum over i < bytes of b[offset+i] * 256^i` when it is false; the
buffer is unchanged and only the indices `offset .. offset+bytes-1` are read;
without an offset argument the result is that for offset 0. -/
theorem C20_read_bytes (b : zjs_buffer_t) (offset bytes : Nat) (rest : List JVal)
    (hbytes : bytes = 1 ∨ bytes = 2 ∨ bytes = 4) (hsize : b.bufsize < 4294967296)
    (hoff : offset + bytes ≤ b.bufsize) :
    (zjs_buffer_read_bytes (some b) (JVal.number (offset : Int) :: rest) bytes true).ret
      = JVal.number ((∑ i ∈ Finset.range bytes,
          b.byte (offset + i) * 256 ^ (bytes - 1 - i) : Nat) : Int) ∧
    (zjs_buffer_read_bytes (some b) (JVal.number (offset : Int) :: rest) bytes false).ret
      = JVal.number ((∑ i ∈ Finset.range bytes, b.byte (offset + i) * 256 ^ i : Nat) : Int) ∧
    (∀ big_endian : Bool,
      (zjs_buffer_read_bytes (some b) (JVal.number (offset : Int) :: rest) bytes big_endian).buf
        = some b ∧
      (∀ i ∈ (zjs_buffer_read_bytes (some b) (JVal.number (offset : Int) :: rest) bytes
          big_endian).accessed, offset ≤ i ∧ i < offset + bytes) ∧
      zjs_buffer_read_bytes (some b) [] bytes big_endian
        = zjs_buffer_read_bytes (some b) [JVal.number 0] bytes big_endian) := by
  have hb4 : bytes ≤ 4 := by omega
  refine ⟨?_, ?_, fun big_endian => ⟨?_, ?_, ?_⟩⟩
  · rw [zjs_buffer_read_bytes_in_bounds b offset bytes true rest hb4 hsize hoff]
    rfl
  · rw [zjs_buffer_read_bytes_in_bounds b offset bytes false rest hb4 hsize hoff]
    rfl
  · rw [zjs_buffer_read_bytes_in_bounds b offset bytes big_endian rest hb4 hsize hoff]
    cases big_endian <;> rfl
  · rw [zjs_buffer_read_bytes_in_bounds b offset bytes big_endian rest hb4 hsize hoff]
    intro i hi
    cases big_endian
    · simp only [Bool.false_eq_true, if_false, List.mem_reverse, List.mem_range'_1] at hi
      exact hi
    · simp only [if_true, List.mem_range'_1] at hi
      exact hi
  · unfold zjs_buffer_read_bytes
    simp [validate_arg_specs, JVal.has_type, to_uint32]

theorem C20_read_bytes_witness :
    (zjs_buffer_read_bytes (some sample_buffer) (JVal.number ((1 : Nat) : Int) :: []) 4 true).ret
      = JVal.number ((∑ i ∈ Finset.range 4,
          sample_buffer.byte (1 + i) * 256 ^ (4 - 1 - i) : Nat) : Int) ∧
    (zjs_buffer_read_bytes (some sample_buffer) (JVal.number ((1 : Nat) : Int) :: []) 4 false).ret
      = JVal.number ((∑ i ∈ Finset.range 4, sample_buffer.byte (1 + i) * 256 ^ i : Nat) : Int) ∧
    (∀ big_endian : Bool,
      (zjs_buffer_read_bytes (some sample_buffer) (JVal.number ((1 : Nat) : Int) :: []) 4
        big_endian).buf = some sample_buffer ∧
      (∀ i ∈ (zjs_buffer_read_bytes (some sample_buffer) (JVal.number ((1 : Nat) : Int) :: []) 4
          big_endian).accessed, 1 ≤ i ∧ i < 1 + 4) ∧
      zjs_buffer_read_bytes (some sample_buffer) [] 4 big_endian
        = zjs_buffer_read_bytes (some sample_buffer) [JVal.number 0] 4 big_endian) :=
  C20_read_bytes sample_buffer 1 4 [] (by decide) (by decide) (by decide)

/-- Values read from `sample_buffer` at offset 1: `0x02030405` big endian and
`0x05040302` little endian. -/
theorem sample_buffer_reads :
    (zjs_buffer_read_bytes (some sample_buffer) [JVal.number 1] 4 true).ret
      = JVal.number 33752069 ∧
    (zjs_buffer_read_bytes (some sample_buffer) [JVal.number 1] 4 false).ret
      = JVal.number 84148994 ∧
    (zjs_buffer_read_bytes (some sample_buffer) [] 2 true).ret = JVal.number 258 := by
  decide

/-- C21 (code defect, evaluated): on the 5-byte `sample_buffer`, offset 4294967295 with
`bytes = 2` lies outside the buffer (`offset + bytes` is 4294967297), yet the
`uint32_t` sum wraps to 1 and passes the bounds check: the read returns the
number 1 instead of an error, the write returns `undefined` instead of an
error, both access index 4294967295 and then index 0, and the write changes
byte 0 of the buffer. -/
theorem C21_bounds_check_wraps :
    4294967295 + 2 > sample_buffer.bufsize ∧
    (zjs_buffer_read_bytes (some sample_buffer) [JVal.number 4294967295] 2 true).ret
      = JVal.number 1 ∧
    (zjs_buffer_read_bytes (some sample_buffer) [JVal.number 4294967295] 2 true).accessed
      = [4294967295, 0] ∧
    (zjs_buffer_write_bytes (some sample_buffer)
      [JVal.number 1801, JVal.number 4294967295] 2 false).map BufResult.ret
      = some JVal.undefined ∧
    (zjs_buffer_write_bytes (some sample_buffer)
      [JVal.number 1801, JVal.number 4294967295] 2 false).map BufResult.accessed
      = some [4294967295, 0] ∧
    (zjs_buffer_write_bytes (some sample_buffer)
      [JVal.number 1801, JVal.number 4294967295] 2 false).map BufResult.buf
      = some (some { buffer := [7, 2, 3, 4, 5], bufsize := 5 }) := by
  decide

/-- C27 (code defect, evaluated): `toString('ascii')` on the 5-byte `sample_buffer`, whose
storage is the 5 bytes allocated by `zjs_buffer_create`, first stores the
terminator at index 5 = `bufsize`, one past the allocation, and the string
read that follows touches index 5 again; the bytes inside the allocation are
unchanged. -/
theorem C27_ascii_touches_index_bufsize :
    sample_buffer = zjs_buffer_create [1, 2, 3, 4, 5] ∧
    sample_buffer.buffer.length = 5 ∧
    (zjs_buffer_to_string (some sample_buffer) [JVal.string "ascii"]).map BufResult.accessed
      = some [5, 0, 1, 2, 3, 4, 5] ∧
    (zjs_buffer_to_string (some sample_buffer) [JVal.string "ascii"]).map BufResult.buf
      = some (some sample_buffer) := by
  decide

set_option maxRecDepth 100000 in
theorem nibbles (x : Fin 256) :
    (240 &&& x.val) >>> 4 = x.val / 16 ∧ 15 &&& x.val = x.val % 16 := by
  revert x
  decide

theorem hex_loop_spec (b : zjs_buffer_t) (n : Nat) :
    ∀ (i : Nat) (hexbuf : List Char) (acc : List Nat),
      (hex_loop b n i hexbuf acc).1.length = hexbuf.length + 2 * n ∧
      (∀ k, k < hexbuf.length → (hex_loop b n i hexbuf acc).1[k]? = hexbuf[k]?) ∧
      (∀ j, j < n →
        (hex_loop b n i hexbuf acc).1[hexbuf.length + 2 * j]?
          = some (zjs_int_to_hex (b.byte (i + j) / 16)) ∧
        (hex_loop b n i hexbuf acc).1[hexbuf.length + 2 * j + 1]?
          = some (zjs_int_to_hex (b.byte (i + j) % 16))) ∧
      (∀ k, k ∈ (hex_loop b n i hexbuf acc).2 → k ∈ acc ∨ (i ≤ k ∧ k < i + n)) := by
  induction n with
  | zero =>
    intro i hexbuf acc
    exact ⟨by simp [hex_loop], fun k _ => by simp [hex_loop], fun j hj => by omega,
      fun k hk => Or.inl (by simpa [hex_loop] using hk)⟩
  | succ n ih =>
    intro i hexbuf acc
    have hn := nibbles (b.buffer.getD i 0)
    have hstep : hex_loop b (n + 1) i hexbuf acc
        = hex_loop b n (i + 1)
            (hexbuf ++ [zjs_int_to_hex (b.byte i / 16), zjs_int_to_hex (b.byte i % 16)])
            (acc ++ [i, i]) := by
      show hex_loop b n (i + 1) _ _ = _
      simp only [zjs_buffer_t.byte, hn.1, hn.2]
    rw [hstep]
    obtain ⟨h1, h2, h3, h4⟩ := ih (i + 1)
      (hexbuf ++ [zjs_int_to_hex (b.byte i / 16), zjs_int_to_hex (b.byte i % 16)])
      (acc ++ [i, i])
    have hlen : (hexbuf ++ [zjs_int_to_hex (b.byte i / 16),
        zjs_int_to_hex (b.byte i % 16)]).length = hexbuf.length + 2 := by simp
    refine ⟨by rw [h1, hlen]; omega, ?_, ?_, ?_⟩
    · intro k hk
      rw [h2 k (by rw [hlen]; omega), List.getElem?_append_left hk]
    · intro j hj
      cases j with
      | zero =>
        constructor
        · rw [h2 _ (by rw [hlen]; omega), List.getElem?_append_right (by omega)]
          simp
        · rw [h2 _ (by rw [hlen]; omega), List.getElem?_append_right (by omega)]
          simp
      | succ j =>
        have h3j := h3 j (by omega)
        rw [hlen] at h3j
        have e1 : hexbuf.length + 2 * (j + 1) = hexbuf.length + 2 + 2 * j := by omega
        have e2 : i + (j + 1) = i + 1 + j := by omega
        rw [e1, e2]
        exact h3j
    · intro k hk
      rcases h4 k hk with h | h
      · simp only [List.mem_append, List.mem_cons, List.mem_singleton, List.not_mem_nil,
          or_false, or_self] at h
        rcases h with h | h
        · exact Or.inl h
        · exact Or.inr ⟨by omega, by omega⟩
      · exact Or.inr ⟨by omega, by omega⟩

/-- C22: `zjs_int_to_hex` maps every `v` with `0 <= v <= 15` to the `v`-th character of
`0123456789abcdef`; and for every buffer with `bufsize = n > 0`,
`toString('hex')` returns a string of exactly `2n` characters in which
characters `2i` and `2i+1` are the hex digits of the high and the low nibble of
byte `i`, reads only indices below `n`, and leaves the buffer unchanged. -/
theorem C22_hex_string (b : zjs_buffer_t) (hpos : 0 < b.bufsize) :
    (∀ v, v ≤ 15 → zjs_int_to_hex v = "0123456789abcdef".data.getD v ' ') ∧
    ∃ chars accessed,
      zjs_buffer_to_string (some b) [JVal.string "hex"]
        = some { ret := JVal.string (String.mk chars), buf := some b, accessed := accessed } ∧
      chars.length = 2 * b.bufsize ∧
      (∀ i, i < b.bufsize →
        chars[2 * i]? = some (zjs_int_to_hex (b.byte i / 16)) ∧
        chars[2 * i + 1]? = some (zjs_int_to_hex (b.byte i % 16)) ∧
        b.byte i / 16 ≤ 15 ∧ b.byte i % 16 ≤ 15) ∧
      (∀ k, k ∈ accessed → k < b.bufsize) := by
  constructor
  · intro v hv
    have h : ∀ w : Fin 16, zjs_int_to_hex w.val = "0123456789abcdef".data.getD w.val ' ' := by
      decide
    exact h ⟨v, by omega⟩
  · obtain ⟨h1, _, h3, h4⟩ := hex_loop_spec b b.bufsize 0 [] []
    refine ⟨(hex_loop b b.bufsize 0 [] []).1, (hex_loop b b.bufsize 0 [] []).2, ?_, ?_, ?_, ?_⟩
    · have henc : zjs_copy_jstring (JVal.string "hex") 16 = ("hex", 3) := by decide
      have hna : ¬ ("hex" = "ascii") := by decide
      simp [zjs_buffer_to_string, validate_arg_specs, JVal.has_type, henc, hna, hpos]
    · simpa using h1
    · intro i hi
      have h := h3 i hi
      simp only [List.length_nil, Nat.zero_add] at h
      have hb := byte_lt b i
      exact ⟨h.1, h.2, by omega, by omega⟩
    · intro k hk
      rcases h4 k hk with h | h
      · simp at h
      · omega

theorem C22_hex_string_witness :
    (∀ v, v ≤ 15 → zjs_int_to_hex v = "0123456789abcdef".data.getD v ' ') ∧
    ∃ chars accessed,
      zjs_buffer_to_string (some sample_buffer) [JVal.string "hex"]
        = some { ret := JVal.string (String.mk chars), buf := some sample_buffer,
                 accessed := accessed } ∧
      chars.length = 2 * sample_buffer.bufsize ∧
      (∀ i, i < sample_buffer.bufsize →
        chars[2 * i]? = some (zjs_int_to_hex (sample_buffer.byte i / 16)) ∧
        chars[2 * i + 1]? = some (zjs_int_to_hex (sample_buffer.byte i % 16)) ∧
        sample_buffer.byte i / 16 ≤ 15 ∧ sample_buffer.byte i % 16 ≤ 15) ∧
      (∀ k, k ∈ accessed → k < sample_buffer.bufsize) :=
  C22_hex_string sample_buffer (by decide)

theorem map_get_set_self (m : List (String × EventObj)) (e : String) (o : EventObj) :
    map_get (map_set m e o) e = some o := by
  induction m with
  | nil => simp [map_set, map_get]
  | cons p rest ih =>
    obtain ⟨k, v⟩ := p
    unfold map_set
    by_cases hk : k = e
    · simp [hk, map_get]
    · simp [hk, map_get, ih]

/-- C24: for every emitter, event name `e` and accepted `on(e, fn)` (emitter present and
`numEvents < maxListeners`).  When `e` has no EventRecord, the registry's
`addListener` is called with `existingId = -1`, the emitter object as receiver,
no native context and post hook `post_event`, and the returned id is stored in
the new record of `e`.  When `e` has a record, the id stored in it is passed as
`existingId` and the returned id is stored back; when that id denotes a live
slot and the allocation succeeds, the returned id is the stored one, so the
listeners of `e` share one slot id. -/
theorem C24_slot_id_shared (w : World) (em : EventT) (obj : JVal) (e : String)
    (listener : JVal) (hem : w.event = some em)
    (hlt : get_num_events w.event < get_max_event_listeners w.event) :
    (map_get em.map e = none →
      (zjs_add_event_listener w obj e listener).trace
        = w.trace ++ [RegCall.add_callback_list listener obj none PostFn.post_event (-1)] ∧
      get_event_obj (zjs_add_event_listener w obj e listener).event e
        = some { callback_id := some (zjs_add_callback_list w listener obj none PostFn.post_event (-1)).2 }) ∧
    (∀ o, map_get em.map e = some o →
      (zjs_add_event_listener w obj e listener).trace
        = w.trace ++ [RegCall.add_callback_list listener obj none PostFn.post_event
            (get_callback_id o)] ∧
      get_event_obj (zjs_add_event_listener w obj e listener).event e
        = some { callback_id := some (zjs_add_callback_list w listener obj none PostFn.post_event
              (get_callback_id o)).2 } ∧
      (∀ s, find_slot w.cb.slots (get_callback_id o) = some s → w.heap.head? ≠ some false →
        (zjs_add_callback_list w listener obj none PostFn.post_event (get_callback_id o)).2
          = get_callback_id o)) := by
  rw [zjs_add_event_listener_accepted w em obj e listener hem hlt]
  constructor
  · intro hnone
    rw [hnone]
    refine ⟨?_, ?_⟩
    · simp [zjs_add_callback_list_trace, get_callback_id]
    · simp only [get_event_obj, Option.getD_none, get_callback_id]
      exact map_get_set_self _ _ _
  · intro o ho
    rw [ho]
    refine ⟨?_, ?_, ?_⟩
    · simp [zjs_add_callback_list_trace]
    · simp only [get_event_obj, Option.getD_some]
      exact map_get_set_self _ _ _
    · intro s hs hheap
      unfold zjs_add_callback_list zjs_malloc
      cases hh : w.heap with
      | nil => simp [hs]
      | cons b rest =>
        cases b with
        | false => simp [hh] at hheap
        | true => simp [hs]

theorem C24_slot_id_shared_witness :
    (map_get sample_one_record.map "a" = none →
      (zjs_add_event_listener sample_one sample_emitter "a" (JVal.function 2)).trace
        = sample_one.trace ++ [RegCall.add_callback_list (JVal.function 2) sample_emitter none
            PostFn.post_event (-1)] ∧
      get_event_obj (zjs_add_event_listener sample_one sample_emitter "a"
          (JVal.function 2)).event "a"
        = some { callback_id := some (zjs_add_callback_list sample_one (JVal.function 2) sample_emitter none
              PostFn.post_event (-1)).2 }) ∧
    (∀ o, map_get sample_one_record.map "a" = some o →
      (zjs_add_event_listener sample_one sample_emitter "a" (JVal.function 2)).trace
        = sample_one.trace ++ [RegCall.add_callback_list (JVal.function 2) sample_emitter none
            PostFn.post_event (get_callback_id o)] ∧
      get_event_obj (zjs_add_event_listener sample_one sample_emitter "a"
          (JVal.function 2)).event "a"
        = some { callback_id := some (zjs_add_callback_list sample_one (JVal.function 2) sample_emitter none
              PostFn.post_event (get_callback_id o)).2 } ∧
      (∀ s, find_slot sample_one.cb.slots (get_callback_id o) = some s →
        sample_one.heap.head? ≠ some false →
        (zjs_add_callback_list sample_one (JVal.function 2) sample_emitter none
          PostFn.post_event (get_callback_id o)).2 = get_callback_id o)) :=
  C24_slot_id_shared sample_one sample_one_record sample_emitter "a" (JVal.function 2)
    (by decide) (by decide)

theorem zjs_copy_jstring_too_long (e : String) (maxlen : Nat) (h : maxlen ≤ e.utf8ByteSize) :
    zjs_copy_jstring (JVal.string e) maxlen = ("", 0) := by
  have : ¬ maxlen > e.utf8ByteSize := by omega
  simp [zjs_copy_jstring, this]

theorem zjs_copy_jstring_fits (e : String) (maxlen : Nat) (h0 : 0 < e.utf8ByteSize)
    (h : e.utf8ByteSize < maxlen) :
    zjs_copy_jstring (JVal.string e) maxlen = (e, e.utf8ByteSize) ∧ e.utf8ByteSize ≠ 0 := by
  have : maxlen > e.utf8ByteSize := h
  exact ⟨by simp [zjs_copy_jstring, this], by omega⟩

/-- The error value of the six script functions for an event name that does
not fit the 24-byte buffer. -/
theorem too_long_ne (o : Nat) (b : Bool) (n : Int) :
    JVal.object o ≠ JVal.error "event name is too long" ∧
    JVal.boolean b ≠ JVal.error "event name is too long" ∧
    JVal.number n ≠ JVal.error "event name is too long" ∧
    JVal.undefined ≠ JVal.error "event name is too long" ∧
    JVal.error "event object not found" ≠ JVal.error "event name is too long" := by
  refine ⟨by simp, by simp, by simp, by simp, by decide⟩

/-- C25: event names are bounded to 24 bytes including the terminator.  For a name of 24
or more bytes, `on`/`addListener`, `emit`, `removeListener`,
`removeAllListeners`, `listenerCount` and `listeners` each return the error
`event name is too long` and the state (emitter record, registry and trace) as
it was.  For a non-empty name of at most 23 bytes none of them returns that
error: each goes on to its body. -/
theorem C25_event_name_bound (w : World) (o : Nat) (e : String) (f : Nat) (rest : List JVal) :
    (24 ≤ e.utf8ByteSize →
      add_listener w (JVal.object o) (JVal.string e :: JVal.function f :: rest)
        = (w, JVal.error "event name is too long") ∧
      emit_event w (JVal.object o) (JVal.string e :: rest)
        = (w, JVal.error "event name is too long") ∧
      remove_listener w (JVal.object o) (JVal.string e :: JVal.function f :: rest)
        = (w, JVal.error "event name is too long") ∧
      remove_all_listeners w (JVal.object o) (JVal.string e :: rest)
        = (w, JVal.error "event name is too long") ∧
      get_listener_count w (JVal.object o) (JVal.string e :: rest)
        = (w, JVal.error "event name is too long") ∧
      get_listeners w (JVal.object o) (JVal.string e :: rest)
        = (w, JRet.value (JVal.error "event name is too long"))) ∧
    (0 < e.utf8ByteSize ∧ e.utf8ByteSize ≤ 23 →
      (add_listener w (JVal.object o) (JVal.string e :: JVal.function f :: rest)).2
        ≠ JVal.error "event name is too long" ∧
      (emit_event w (JVal.object o) (JVal.string e :: rest)).2
        ≠ JVal.error "event name is too long" ∧
      (remove_listener w (JVal.object o) (JVal.string e :: JVal.function f :: rest)).2
        ≠ JVal.error "event name is too long" ∧
      (remove_all_listeners w (JVal.object o) (JVal.string e :: rest)).2
        ≠ JVal.error "event name is too long" ∧
      (get_listener_count w (JVal.object o) (JVal.string e :: rest)).2
        ≠ JVal.error "event name is too long" ∧
      (get_listeners w (JVal.object o) (JVal.string e :: rest)).2
        ≠ JRet.value (JVal.error "event name is too long")) := by
  constructor
  · intro hlong
    have hc := zjs_copy_jstring_too_long e ZJS_MAX_EVENT_NAME_SIZE
      (by simpa [ZJS_MAX_EVENT_NAME_SIZE] using hlong)
    refine ⟨?_, ?_, ?_, ?_, ?_, ?_⟩
    · simp [add_listener, validate_args, JVal.has_type, hc]
    · simp [emit_event, validate_args, JVal.has_type, hc]
    · simp [remove_listener, validate_args, JVal.has_type, hc]
    · simp [remove_all_listeners, validate_args, JVal.has_type, hc]
    · simp [get_listener_count, validate_args, JVal.has_type, hc]
    · simp [get_listeners, validate_args, JVal.has_type, hc]
  · intro hfit
    have hv : valid_name e := ⟨hfit.1, by simp only [ZJS_MAX_EVENT_NAME_SIZE]; omega⟩
    obtain ⟨hc, hne⟩ := zjs_copy_jstring_fits e ZJS_MAX_EVENT_NAME_SIZE hv.1 hv.2
    refine ⟨?_, ?_, ?_, ?_, ?_, ?_⟩
    · rw [add_listener_of_valid w _ e f rest hv]
      exact (too_long_ne o true 0).1
    · rw [emit_event_of_valid w _ e rest hv]
      exact (too_long_ne o _ 0).2.1
    · rw [remove_listener_of_valid w _ e f rest hv]
      split
      · exact (too_long_ne o true 0).2.2.2.1
      · split
        · exact (too_long_ne o true 0).1
        · exact (too_long_ne o true 0).1
    · rw [remove_all_listeners_of_valid_name w _ e rest hv]
      split
      · exact (too_long_ne o true 0).2.2.2.1
      · split
        · exact (too_long_ne o true 0).2.2.2.1
        · split
          · exact (too_long_ne o true 0).1
          · exact (too_long_ne o true 0).1
    · unfold get_listener_count
      simp only [validate_args, JVal.has_type, Bool.and_true, Bool.not_true, Bool.false_eq_true,
        if_false, List.getD_cons_zero, hc, hne]
      split
      · exact (too_long_ne o true 0).2.2.1
      · split
        · exact (too_long_ne o true _).2.2.1
        · exact (too_long_ne o true 0).2.2.1
    · unfold get_listeners
      simp only [validate_args, JVal.has_type, Bool.and_true, Bool.not_true, Bool.false_eq_true,
        if_false, List.getD_cons_zero, hc, hne]
      split
      · intro h
        exact (too_long_ne o true 0).2.2.2.2 (JRet.value.inj h)
      · split
        · intro h
          exact (too_long_ne o true 0).2.2.2.1 (JRet.value.inj h)
        · intro h
          exact JRet.noConfusion h

/-- Values stored and read back on `sample_buffer`: `-2` written as `uint16`
big endian at offset 1 gives the bytes `ff fe` and reads back as 65534; `-1`
written as `uint32` little endian at offset 0 gives four bytes `ff` and reads
back as 4294967295. -/
theorem sample_buffer_negative_writes :
    (zjs_buffer_write_bytes (some sample_buffer) [JVal.number (-2), JVal.number 1] 2
      true).map BufResult.buf = some (some { buffer := [1, 255, 254, 4, 5], bufsize := 5 }) ∧
    (zjs_buffer_read_bytes (some { buffer := [1, 255, 254, 4, 5], bufsize := 5 })
      [JVal.number 1] 2 true).ret = JVal.number 65534 ∧
    (zjs_buffer_write_bytes (some sample_buffer) [JVal.number (-1), JVal.number 0] 4
      false).map BufResult.buf
      = some (some { buffer := [255, 255, 255, 255, 5], bufsize := 5 }) ∧
    (zjs_buffer_read_bytes (some { buffer := [255, 255, 255, 255, 5], bufsize := 5 })
      [JVal.number 0] 4 false).ret = JVal.number 4294967295 := by
  decide

theorem is_set_iff (a i : Nat) : IS_SET a i ≠ 0 ↔ a.testBit i = true := by
  unfold IS_SET Nat.testBit
  rw [Nat.and_comm]
  simp

theorem is_set_eq_zero_iff (a i : Nat) : IS_SET a i = 0 ↔ a.testBit i = false := by
  have h := is_set_iff a i
  constructor
  · intro h0
    cases hb : a.testBit i with
    | false => rfl
    | true => exact absurd h0 (h.mpr hb)
  · intro hb
    by_contra h0
    rw [h.mp h0] at hb
    exact Bool.noConfusion hb

theorem testBit_bit_set (a k j : Nat) (hj : j ≤ 31) :
    (BIT_SET a k).testBit j = (a.testBit j || decide (k = j)) := by
  unfold BIT_SET
  have h32 : (4294967296 : Nat) = 2 ^ 32 := by norm_num
  rw [h32, Nat.testBit_mod_two_pow, Nat.testBit_or, Nat.one_shiftLeft, Nat.testBit_two_pow]
  have : j < 32 := by omega
  simp [this]

theorem testBit_bit_clr (a k j : Nat) (hj : j ≤ 31) :
    (BIT_CLR a k).testBit j = (a.testBit j && !decide (k = j)) := by
  unfold BIT_CLR
  have h32 : (4294967296 : Nat) = 2 ^ 32 := by norm_num
  have hm : (4294967295 : Nat) = 2 ^ 32 - 1 := by norm_num
  rw [Nat.testBit_and, Nat.testBit_xor, h32, Nat.testBit_mod_two_pow, hm,
    Nat.testBit_two_pow_sub_one, Nat.one_shiftLeft, Nat.testBit_two_pow]
  have : j < 32 := by omega
  simp [this]

theorem new_file_scan_spec (a : Nat) (fuel : Nat) :
    ∀ fd, fuel + fd = 32 → fd ≤ 31 →
      (new_file_scan a fuel fd = none ↔ ∀ j, fd ≤ j → j ≤ 31 → IS_SET a j ≠ 0) ∧
      (∀ k, new_file_scan a fuel fd = some k →
        fd ≤ k ∧ k ≤ 31 ∧ IS_SET a k = 0 ∧ ∀ j, fd ≤ j → j < k → IS_SET a j ≠ 0) := by
  induction fuel with
  | zero => intro fd h1 h2; omega
  | succ fuel ih =>
    intro fd h1 h2
    unfold new_file_scan
    by_cases hset : IS_SET a fd ≠ 0
    · by_cases hlast : fd + 1 > 31
      · simp only [hset, hlast, ne_eq, not_false_eq_true, if_true]
        refine ⟨⟨fun _ j hj1 hj2 => ?_, fun _ => trivial⟩, fun k hk => by simp at hk⟩
        have : j = fd := by omega
        rw [this]; exact hset
      · obtain ⟨ih1, ih2⟩ := ih (fd + 1) (by omega) (by omega)
        simp only [hset, hlast, ne_eq, not_false_eq_true, if_true, if_false]
        refine ⟨⟨fun hn j hj1 hj2 => ?_, fun hall => ?_⟩, fun k hk => ?_⟩
        · by_cases hjf : j = fd
          · rw [hjf]; exact hset
          · exact ih1.mp hn j (by omega) hj2
        · exact ih1.mpr (fun j hj1 hj2 => hall j (by omega) hj2)
        · obtain ⟨k1, k2, k3, k4⟩ := ih2 k hk
          refine ⟨by omega, k2, k3, fun j hj1 hj2 => ?_⟩
          by_cases hjf : j = fd
          · rw [hjf]; exact hset
          · exact k4 j (by omega) hj2
    · have h0 : IS_SET a fd = 0 := by
        by_contra h; exact hset h
      simp only [hset, if_false]
      refine ⟨⟨fun hn => by simp at hn, fun hall => absurd h0 (hall fd (le_refl _) h2)⟩,
        fun k hk => ?_⟩
      have hk2 : fd = k := by simpa using hk
      subst hk2
      exact ⟨le_refl _, h2, h0, fun j hj1 hj2 => by omega⟩

theorem new_file_spec (s : FsState) (env : FsEnv) :
    ((new_file s env).2 = none ↔
      (∀ i, i ≤ 31 → IS_SET s.fd_used i ≠ 0) ∨ env.malloc_ok = false) ∧
    ((new_file s env).2 = none → (new_file s env).1 = s) ∧
    (∀ h, (new_file s env).2 = some h →
      h.fd ≤ 31 ∧ IS_SET s.fd_used h.fd = 0 ∧ (∀ j, j < h.fd → IS_SET s.fd_used j ≠ 0) ∧
      (new_file s env).1 = { s with fd_used := BIT_SET s.fd_used h.fd } ∧
      h.mode = FileMode.MODE_R ∧ env.malloc_ok = true) := by
  obtain ⟨hnone, hsome⟩ := new_file_scan_spec s.fd_used 32 0 rfl (by omega)
  unfold new_file
  cases hscan : new_file_scan s.fd_used 32 0 with
  | none =>
    have hall := hnone.mp hscan
    simp only []
    exact ⟨⟨fun _ => Or.inl (fun i hi => hall i (Nat.zero_le _) hi),
        fun _ => by first | rfl | trivial⟩,
      fun _ => by first | rfl | trivial, fun h hh => by simp at hh⟩
  | some fd =>
    obtain ⟨_, k2, k3, k4⟩ := hsome fd hscan
    have hnot : ¬ (∀ i, i ≤ 31 → IS_SET s.fd_used i ≠ 0) := fun hall => hall fd k2 k3
    cases hm : env.malloc_ok with
    | false =>
      simp only [Bool.not_false, if_true]
      exact ⟨⟨fun _ => Or.inr (by first | rfl | trivial), fun _ => by first | rfl | trivial⟩,
        fun _ => by first | rfl | trivial, fun h hh => by simp at hh⟩
    | true =>
      simp only [Bool.not_true, Bool.false_eq_true, if_false]
      refine ⟨⟨fun h => by simp at h, fun h => ?_⟩, fun h => by simp at h, fun h hh => ?_⟩
      · rcases h with h | h
        · exact absurd h hnot
        · exact Bool.noConfusion h
      · have hh2 : h = { fd := fd, mode := FileMode.MODE_R, error := 0, rpos := 0 } := by
          simpa using hh.symm
        subst hh2
        exact ⟨k2, k3, fun j hj => k4 j (Nat.zero_le _) hj, rfl, rfl, trivial⟩

theorem zjs_open_cases (s : FsState) (env : FsEnv) (argv : List JVal) :
    ((zjs_open s env argv).1 = s ∧ ∃ msg, (zjs_open s env argv).2 = JVal.error msg) ∨
    (∃ h, (new_file s env).2 = some h ∧
      (((zjs_open s env argv).1 = (new_file s env).1 ∧
          (zjs_open s env argv).2 = JVal.error "could not open file") ∨
        (∃ m, (zjs_open s env argv).1
            = { (new_file s env).1 with
                opened_handles := { h with error := env.fs_open, mode := m }
                  :: (new_file s env).1.opened_handles } ∧
          (zjs_open s env argv).2 = JVal.number (h.fd : Int)))) := by
  unfold zjs_open
  split
  · exact Or.inl ⟨rfl, _, rfl⟩
  · dsimp only
    split
    · exact Or.inl ⟨rfl, _, rfl⟩
    · split
      · exact Or.inl ⟨rfl, _, rfl⟩
      · split
        · exact Or.inl ⟨rfl, _, rfl⟩
        · have hns := (new_file_spec s env).2.1
          cases hnf : new_file s env with
          | mk s1 oh =>
            cases oh with
            | none =>
              have : s1 = s := by
                have := hns (by rw [hnf])
                rw [hnf] at this
                exact this
              subst this
              exact Or.inl ⟨rfl, _, rfl⟩
            | some h =>
              refine Or.inr ⟨h, rfl, ?_⟩
              dsimp only
              split
              · exact Or.inl ⟨rfl, rfl⟩
              · exact Or.inr ⟨_, rfl, rfl⟩

theorem fds_consistent_open (s : FsState) (env : FsEnv) (argv : List JVal)
    (hs : fds_consistent s) : fds_consistent (zjs_open s env argv).1 := by
  obtain ⟨hnd, hbits⟩ := hs
  rcases zjs_open_cases s env argv with ⟨h1, _⟩ | ⟨h, hnew, hcase⟩
  · rw [h1]; exact ⟨hnd, hbits⟩
  · obtain ⟨hle, hclear, _, hst, _, _⟩ := (new_file_spec s env).2.2 h hnew
    have hbits2 : ∀ x ∈ s.opened_handles,
        x.fd ≤ 31 ∧ IS_SET (BIT_SET s.fd_used h.fd) x.fd ≠ 0 := by
      intro x hx
      obtain ⟨hx1, hx2⟩ := hbits x hx
      refine ⟨hx1, (is_set_iff _ _).mpr ?_⟩
      rw [testBit_bit_set _ _ _ hx1, (is_set_iff _ _).mp hx2]
      rfl
    rcases hcase with ⟨h1, _⟩ | ⟨m, h1, _⟩
    · rw [h1, hst]
      exact ⟨hnd, hbits2⟩
    · rw [h1, hst]
      refine ⟨?_, ?_⟩
      · simp only [List.map_cons]
        refine List.nodup_cons.mpr ⟨?_, hnd⟩
        intro hmem
        obtain ⟨x, hx, hxfd⟩ := List.mem_map.mp hmem
        have hxset := (hbits x hx).2
        rw [hxfd] at hxset
        exact hxset hclear
      · intro x hx
        simp only [List.mem_cons] at hx
        rcases hx with hx | hx
        · subst hx
          refine ⟨hle, (is_set_iff _ _).mpr ?_⟩
          simp only
          rw [testBit_bit_set _ _ _ hle]
          simp
        · exact hbits2 x hx

theorem fds_consistent_free (s : FsState) (handle : file_handle_t) (hs : fds_consistent s) :
    fds_consistent (free_file s handle) := by
  obtain ⟨hnd, hbits⟩ := hs
  unfold free_file
  split
  · rename_i hmem
    have hnd2 : s.opened_handles.Nodup := List.Nodup.of_map _ hnd
    refine ⟨?_, ?_⟩
    · exact List.Nodup.sublist ((List.erase_sublist handle s.opened_handles).map _) hnd
    · intro x hx
      simp only at hx
      obtain ⟨hne, hxl⟩ := (List.Nodup.mem_erase_iff hnd2).mp hx
      obtain ⟨hx1, hx2⟩ := hbits x hxl
      have hfd : handle.fd ≠ x.fd := by
        intro heq
        exact hne (List.inj_on_of_nodup_map hnd hxl hmem heq.symm)
      refine ⟨hx1, (is_set_iff _ _).mpr ?_⟩
      simp only
      rw [testBit_bit_clr _ _ _ hx1, (is_set_iff _ _).mp hx2]
      simp [hfd]
  · exact ⟨hnd, hbits⟩

theorem fds_consistent_close (s : FsState) (env : FsEnv) (argv : List JVal)
    (hs : fds_consistent s) : fds_consistent (zjs_close s env argv).1 := by
  unfold zjs_close
  split
  · exact hs
  · split
    · split
      · exact hs
      · exact fds_consistent_free s _ hs
    · exact hs

theorem fds_consistent_run (calls : List (FsCall × FsEnv)) :
    ∀ s, fds_consistent s → fds_consistent (fs_run s calls) := by
  induction calls with
  | nil => intro s hs; exact hs
  | cons c cs ih =>
    intro s hs
    unfold fs_run
    apply ih
    obtain ⟨call, env⟩ := c
    cases call with
    | openSync argv => exact fds_consistent_open s env argv hs
    | closeSync argv => exact fds_consistent_close s env argv hs

/-- C28: in every state reached from start-up by any sequence of `openSync` and
`closeSync` calls, whatever the outside calls return, the handles of
`opened_handles` have pairwise distinct descriptors, each in `0..31`.  Where
`openSync` returns a descriptor, it is the smallest one whose bit in `fd_used`
was clear.  And `new_file` returns no handle exactly when all 32 bits are set
or the allocation fails, leaving the state as it was. -/
theorem C28_descriptors_distinct (calls : List (FsCall × FsEnv)) (s : FsState) (env : FsEnv)
    (argv : List JVal) :
    ((fs_run FsState.init calls).opened_handles.map file_handle_t.fd).Nodup ∧
    (∀ h ∈ (fs_run FsState.init calls).opened_handles, h.fd ≤ 31) ∧
    (∀ n : Int, (zjs_open s env argv).2 = JVal.number n →
      ∃ fd : Nat, n = (fd : Int) ∧ fd ≤ 31 ∧ IS_SET s.fd_used fd = 0 ∧
        (∀ j, j < fd → IS_SET s.fd_used j ≠ 0) ∧
        ∃ h ∈ (zjs_open s env argv).1.opened_handles, h.fd = fd) ∧
    ((new_file s env).2 = none ↔
      (∀ i, i ≤ 31 → IS_SET s.fd_used i ≠ 0) ∨ env.malloc_ok = false) ∧
    ((new_file s env).2 = none → (new_file s env).1 = s) := by
  have hinit : fds_consistent FsState.init := by
    refine ⟨by simp [FsState.init], fun h hh => ?_⟩
    simp [FsState.init] at hh
  obtain ⟨hnd, hbits⟩ := fds_consistent_run calls FsState.init hinit
  refine ⟨hnd, fun h hh => (hbits h hh).1, ?_, (new_file_spec s env).1,
    (new_file_spec s env).2.1⟩
  intro n hn
  rcases zjs_open_cases s env argv with ⟨_, msg, hmsg⟩ | ⟨h, hnew, hcase⟩
  · rw [hmsg] at hn
    exact JVal.noConfusion hn
  · obtain ⟨hle, hclear, hsmall, _, _, _⟩ := (new_file_spec s env).2.2 h hnew
    rcases hcase with ⟨_, herr⟩ | ⟨m, hst, hret⟩
    · rw [herr] at hn
      exact JVal.noConfusion hn
    · rw [hret] at hn
      refine ⟨h.fd, (JVal.number.inj hn).symm, hle, hclear, hsmall, ?_⟩
      rw [hst]
      exact ⟨_, List.mem_cons_self _ _, rfl⟩

/-- C23 (code defect, evaluated): from start-up, `openSync("f", "w")` during which `fs_open`
fails returns the error `could not open file` and leaves bit 0 of `fd_used` set
although `opened_handles` is empty: `zjs_open` frees the handle that `new_file`
made without clearing its bit. -/
theorem C23_bit_set_without_handle :
    env_fail.fs_open ≠ 0 ∧
    (zjs_open FsState.init env_fail [JVal.string "f", JVal.string "w"]).2
      = JVal.error "could not open file" ∧
    fs_run FsState.init [(FsCall.openSync [JVal.string "f", JVal.string "w"], env_fail)]
      = { fd_used := 1, opened_handles := [] } ∧
    IS_SET (fs_run FsState.init
      [(FsCall.openSync [JVal.string "f", JVal.string "w"], env_fail)]).fd_used 0 = 1 ∧
    find_file (fs_run FsState.init
      [(FsCall.openSync [JVal.string "f", JVal.string "w"], env_fail)]).opened_handles 0
      = none := by
  decide

/-- C29 (code defect, evaluated): `mkdirSync("/d")` returns the error
`error creating directory` when `fs_mkdir` reports success (0) and returns
`undefined` when `fs_mkdir` reports the failure -5. -/
theorem C29_mkdir_test_inverted :
    env_ok.fs_mkdir = 0 ∧
    zjs_mkdir env_ok [JVal.string "/d"] = JVal.error "error creating directory" ∧
    env_fail.fs_mkdir ≠ 0 ∧
    zjs_mkdir env_fail [JVal.string "/d"] = JVal.undefined := by
  decide

theorem get_mode_iff (str : String) :
    (get_mode str = FileMode.MODE_R_PLUS ↔ str = "r+") ∧
    (get_mode str = FileMode.MODE_W ↔ str = "w") ∧
    (get_mode str = FileMode.MODE_W_PLUS ↔ str = "w+") ∧
    (get_mode str = FileMode.MODE_A ↔ str = "a") ∧
    (get_mode str = FileMode.MODE_A_PLUS ↔ str = "a+") ∧
    (get_mode str = FileMode.MODE_R ↔
      str = "r" ∨ str ∉ ["r+", "w", "w+", "a", "a+"]) := by
  unfold get_mode
  split_ifs with h1 h2 h3 h4 h5 h6
  · subst h1; decide
  · subst h2; decide
  · subst h3; decide
  · subst h4; decide
  · subst h5; decide
  · subst h6; decide
  · simp [h1, h2, h3, h4, h5, h6]

theorem zjs_open_read_mode (s : FsState) (env : FsEnv) (path flags : String)
    (hpath : 0 < path.utf8ByteSize ∧ path.utf8ByteSize < 128)
    (hflags : 0 < flags.utf8ByteSize ∧ flags.utf8ByteSize < 4)
    (hmode : get_mode flags = FileMode.MODE_R) :
    zjs_open s env [JVal.string path, JVal.string flags]
      = if file_exists env = false then (s, JVal.error "file doesn't exist")
        else
          match new_file s env with
          | (s1, none) => (s1, JVal.error "malloc failed")
          | (s1, some handle) =>
              if env.fs_open ≠ 0 then (s1, JVal.error "could not open file")
              else
                ({ s1 with opened_handles :=
                    { handle with error := env.fs_open, mode := FileMode.MODE_R }
                      :: s1.opened_handles },
                 JVal.number (handle.fd : Int)) := by
  obtain ⟨hp, hpn⟩ := zjs_copy_jstring_fits path MAX_PATH_LENGTH hpath.1
    (by simpa [MAX_PATH_LENGTH] using hpath.2)
  obtain ⟨hf, hfn⟩ := zjs_copy_jstring_fits flags 4 hflags.1 hflags.2
  unfold zjs_open
  simp only [validate_args, JVal.has_type, Bool.and_true, Bool.not_true, Bool.false_eq_true,
    if_false, List.getD_cons_zero, List.getD_cons_succ, hp, hpn, hf, hfn, hmode]
  cases hfe : file_exists env <;> simp

theorem to_int32_small (n : Nat) (h : n ≤ 31) : to_int32 (n : Int) = (n : Int) := by
  unfold to_int32; omega

/-- C30 (as stated, refuted): the unrecognised flags string `read` is mapped to `MODE_R`
by `get_mode`, but `openSync("f", "read")` on an existing file returns the error
`size mismatch`, while `openSync("f", "r")` returns descriptor 0. -/
theorem C30_long_flags_rejected :
    get_mode "read" = FileMode.MODE_R ∧
    zjs_open FsState.init env_ok [JVal.string "f", JVal.string "read"]
      = (FsState.init, JVal.error "size mismatch") ∧
    (zjs_open FsState.init env_ok [JVal.string "f", JVal.string "r"]).2 = JVal.number 0 := by
  decide

theorem find_file_head (h : file_handle_t) (rest : List file_handle_t) (hle : h.fd ≤ 31) :
    find_file (h :: rest) (to_int32 (h.fd : Int)) = some h := by
  unfold find_file
  rw [to_int32_small h.fd hle, List.find?_cons]
  simp only [decide_True]

theorem zjs_write_read_only (a : Nat) (h : file_handle_t) (rest : List file_handle_t) (o : Nat)
    (transfer : file_handle_t → JVal) (hle : h.fd ≤ 31) (hmode : h.mode = FileMode.MODE_R) :
    zjs_write { fd_used := a, opened_handles := h :: rest }
        [JVal.number (h.fd : Int), JVal.object o] transfer
      = JVal.error "file is not open for writing" := by
  have hval : validate_arg_specs
      [{ optional := false, kinds := [ArgType.Z_NUMBER] },
       { optional := false, kinds := [ArgType.Z_OBJECT] },
       { optional := true, kinds := [ArgType.Z_NUMBER] },
       { optional := true, kinds := [ArgType.Z_NUMBER] },
       { optional := true, kinds := [ArgType.Z_NUMBER] }]
      [JVal.number (h.fd : Int), JVal.object o] = true := by
    simp only [validate_arg_specs, List.any_cons, List.any_nil, JVal.has_type, Bool.or_false,
      Bool.and_true, Bool.and_self]
  unfold zjs_write
  rw [hval]
  split
  · rename_i hc
    exact absurd hc (by decide)
  · split
    · rename_i n heq
      have hn : n = (h.fd : Int) := (JVal.number.inj heq).symm
      subst hn
      have hl : ({ fd_used := a, opened_handles := h :: rest } : FsState).opened_handles
          = h :: rest := rfl
      rw [hl, find_file_head h rest hle]
      exact if_pos hmode
    · rename_i hne
      exact absurd rfl (hne (h.fd : Int))

/-- C30 (amended): `get_mode` is total: it returns `MODE_R`, `MODE_R_PLUS`, `MODE_W`,
`MODE_W_PLUS`, `MODE_A`, `MODE_A_PLUS` for exactly the strings `r`, `r+`, `w`,
`w+`, `a`, `a+`, and `MODE_R` for every other string.  For a path of acceptable
length, `openSync` with an unrecognised flags string of 1 to 3 bytes behaves
exactly as with `r`: it fails with `file doesn't exist` if and only if the file
does not exist, and a descriptor it returns rejects writes.  An unrecognised
flags string that is empty or has 4 or more bytes is rejected with
`size mismatch`. -/
theorem C30_unrecognised_flags (s : FsState) (env : FsEnv) (path flags : String)
    (hpath : 0 < path.utf8ByteSize ∧ path.utf8ByteSize < 128)
    (hflags : flags ∉ ["r", "r+", "w", "w+", "a", "a+"]) :
    (get_mode "r" = FileMode.MODE_R ∧ get_mode "r+" = FileMode.MODE_R_PLUS ∧
      get_mode "w" = FileMode.MODE_W ∧ get_mode "w+" = FileMode.MODE_W_PLUS ∧
      get_mode "a" = FileMode.MODE_A ∧ get_mode "a+" = FileMode.MODE_A_PLUS) ∧
    (∀ str, (get_mode str = FileMode.MODE_R_PLUS ↔ str = "r+") ∧
      (get_mode str = FileMode.MODE_W ↔ str = "w") ∧
      (get_mode str = FileMode.MODE_W_PLUS ↔ str = "w+") ∧
      (get_mode str = FileMode.MODE_A ↔ str = "a") ∧
      (get_mode str = FileMode.MODE_A_PLUS ↔ str = "a+")) ∧
    get_mode flags = FileMode.MODE_R ∧
    (0 < flags.utf8ByteSize ∧ flags.utf8ByteSize < 4 →
      zjs_open s env [JVal.string path, JVal.string flags]
        = zjs_open s env [JVal.string path, JVal.string "r"]) ∧
    (flags.utf8ByteSize = 0 ∨ 4 ≤ flags.utf8ByteSize →
      zjs_open s env [JVal.string path, JVal.string flags] = (s, JVal.error "size mismatch")) ∧
    ((zjs_open s env [JVal.string path, JVal.string "r"]).2 = JVal.error "file doesn't exist"
      ↔ file_exists env = false) ∧
    (∀ (n : Int) (o : Nat) (transfer : file_handle_t → JVal),
      (zjs_open s env [JVal.string path, JVal.string "r"]).2 = JVal.number n →
      zjs_write (zjs_open s env [JVal.string path, JVal.string "r"]).1
          [JVal.number n, JVal.object o] transfer
        = JVal.error "file is not open for writing") := by
  have hr : (0 : Nat) < "r".utf8ByteSize ∧ "r".utf8ByteSize < 4 := by decide
  have hmr : get_mode "r" = FileMode.MODE_R := by decide
  have hmf : get_mode flags = FileMode.MODE_R := by
    simp only [List.mem_cons, List.mem_singleton, List.not_mem_nil, or_false, not_or] at hflags
    simp [get_mode, hflags]
  have hopen := zjs_open_read_mode s env path "r" hpath hr hmr
  obtain ⟨hp, hpn⟩ := zjs_copy_jstring_fits path MAX_PATH_LENGTH hpath.1
    (by simpa [MAX_PATH_LENGTH] using hpath.2)
  refine ⟨by decide, fun str => ?_, hmf, fun hsz => ?_, fun hsz => ?_, ?_, ?_⟩
  · obtain ⟨h1, h2, h3, h4, h5, _⟩ := get_mode_iff str
    exact ⟨h1, h2, h3, h4, h5⟩
  · rw [zjs_open_read_mode s env path flags hpath hsz hmf, hopen]
  · have hc : (zjs_copy_jstring (JVal.string flags) 4).2 = 0 := by
      rcases hsz with h0 | h4
      · unfold zjs_copy_jstring
        dsimp only
        split
        · exact h0
        · rfl
      · rw [zjs_copy_jstring_too_long flags 4 h4]
    unfold zjs_open
    simp only [validate_args, JVal.has_type, Bool.and_true, Bool.not_true, Bool.false_eq_true,
      if_false, List.getD_cons_zero, List.getD_cons_succ, hp, hpn, hc, if_true]
  · rw [hopen]
    cases hfe : file_exists env with
    | false => simp
    | true =>
      simp only [Bool.true_eq_false, if_false, iff_false]
      cases hnf : new_file s env with
      | mk s1 oh =>
        cases oh with
        | none => simp
        | some h =>
          simp only []
          split
          · simp
          · simp
  · intro n o transfer hn
    rw [hopen] at hn ⊢
    cases hfe : file_exists env with
    | false =>
      rw [hfe, if_pos rfl] at hn
      exact JVal.noConfusion hn
    | true =>
      rw [hfe, if_neg (by decide)] at hn
      rw [if_neg (by decide)]
      have hspec := (new_file_spec s env).2.2
      cases hnf : new_file s env with
      | mk s1 oh =>
        rw [hnf] at hn hspec
        cases oh with
        | none =>
          simp only [] at hn
          exact JVal.noConfusion hn
        | some h =>
          obtain ⟨hle, _⟩ := hspec h rfl
          simp only [] at hn ⊢
          by_cases hfo : env.fs_open ≠ 0
          · rw [if_pos hfo] at hn
            exact JVal.noConfusion hn
          · rw [if_neg hfo] at hn
            have hnfd : n = (h.fd : Int) := (JVal.number.inj hn).symm
            subst hnfd
            rw [if_neg hfo]
            exact zjs_write_read_only s1.fd_used
              { h with error := env.fs_open, mode := FileMode.MODE_R } s1.opened_handles o
              transfer hle rfl

theorem C30_unrecognised_flags_witness :
    zjs_open FsState.init env_ok [JVal.string "f", JVal.string "x"]
      = zjs_open FsState.init env_ok [JVal.string "f", JVal.string "r"] :=
  (C30_unrecognised_flags FsState.init env_ok "f" "x" (by decide) (by decide)).2.2.2.1
    (by decide)

end Zjs
